import Mathlib

/-!
Verification of the scenario-instantiation and run-loop core of the
abstreet traffic simulator (`sim/src/scenario.rs`, `sim/src/helpers.rs`).

The embedding is shallow: the Rust data types become Lean structures,
the stateful instantiation pass becomes explicit state passing of a
`Sim` record, panics become `Except.error`, and machine integers become
`Nat` (no arithmetic here overflows in the source's domain).  Code of
crates that is consumed by `scenario.rs`/`helpers.rs` but whose source
is not part of this excerpt (the `geom`, `map_model`, `walking`,
`abstutil` and `sim::spawn` internals) is modelled from the spec; each
such definition carries a doc comment starting `Modelled from the
spec:`.
-/

namespace ABStreet

/-- Models `map_model::BuildingID`. -/
structure BuildingID where
  id : Nat
deriving DecidableEq, Repr

/-- Models `map_model::RoadID`. -/
structure RoadID where
  id : Nat
deriving DecidableEq, Repr

/-- Models `map_model::IntersectionID`. -/
structure IntersectionID where
  id : Nat
deriving DecidableEq, Repr

/-- Models `map_model::LaneID`. -/
structure LaneID where
  id : Nat
deriving DecidableEq, Repr

/-- Models `sim::CarID`. -/
structure CarID where
  id : Nat
deriving DecidableEq, Repr

/-- Models `sim::Tick`, a wrapper around an unsigned tick count. -/
structure Tick where
  tick : Nat
deriving DecidableEq, Repr

/-- Models `Tick::zero()`. -/
def Tick.zero : Tick := ⟨0⟩

/-- Models `geom::Pt2D`: a point in map-local coordinates.  Coordinates are
modelled as rationals (the source uses `f64`; the claims under study do
not depend on rounding). -/
structure Pt2D where
  x : ℚ
  y : ℚ
deriving DecidableEq, Repr

instance : Inhabited Pt2D := ⟨⟨0, 0⟩⟩

/-- Models `geom::LonLat`: a geographic coordinate. -/
structure LonLat where
  longitude : ℚ
  latitude : ℚ
deriving DecidableEq, Repr

/-- Models `geom::Polygon`, reduced to its vertex list. -/
structure Polygon where
  points : List Pt2D
deriving DecidableEq, Repr

/-- Models `geom::GPSBounds`: the geographic bounding box of a map. -/
structure GPSBounds where
  minLon : ℚ
  maxLon : ℚ
  minLat : ℚ
  maxLat : ℚ
deriving DecidableEq, Repr

/-- Models `geom::Bounds` as used by `Neighborhood::make_everywhere`: only
`max_x` and `max_y` are consumed (the map-local origin is `(0, 0)`). -/
structure Bounds where
  maxX : ℚ
  maxY : ℚ
deriving DecidableEq, Repr

/-- Modelled from the spec: `geom::Pt2D::from_gps` is not part of the
excerpt.  The spec says `finalize` "projects each to local coordinates,
failing fatally if any projection fails"; the projection is modelled as
an affine shift that succeeds exactly when the point lies inside the
map's geographic bounds. -/
def Pt2D.fromGps (pt : LonLat) (b : GPSBounds) : Option Pt2D :=
  if b.minLon ≤ pt.longitude ∧ pt.longitude ≤ b.maxLon ∧
     b.minLat ≤ pt.latitude ∧ pt.latitude ≤ b.maxLat then
    some ⟨pt.longitude - b.minLon, pt.latitude - b.minLat⟩
  else
    none

/-- Modelled from the spec: `geom::Pt2D::center` is not part of the
excerpt; it is the centroid (coordinate average) of a point list, which
is how the spec describes building matching ("whose footprint centroid
lies inside the polygon"). -/
def Pt2D.center (pts : List Pt2D) : Pt2D :=
  ⟨(pts.map Pt2D.x).sum / pts.length, (pts.map Pt2D.y).sum / pts.length⟩

/-- Modelled from the spec: `geom::Polygon::contains_pt` is not part of
the excerpt.  The spec describes a point-in-polygon containment test;
the only polygons this development evaluates it on are the axis-aligned
rectangles built by `make_everywhere`, for which containment coincides
with bounding-box membership, so the test is modelled as bounding-box
membership of the vertex set. -/
def Polygon.containsPt (p : Polygon) (pt : Pt2D) : Bool :=
  decide ((∃ q ∈ p.points, q.x ≤ pt.x) ∧ (∃ q ∈ p.points, pt.x ≤ q.x) ∧
          (∃ q ∈ p.points, q.y ≤ pt.y) ∧ (∃ q ∈ p.points, pt.y ≤ q.y))

/-- Models `map_model::Building`, reduced to the fields `scenario.rs` reads:
its id and its footprint points. -/
structure Building where
  id : BuildingID
  points : List Pt2D

/-- Models `map_model::Road`, reduced to its id and center-line points. -/
structure Road where
  id : RoadID
  center_pts : List Pt2D

/-- Models `PolyLine::first_pt`. -/
def Road.firstPt (r : Road) : Pt2D := r.center_pts.headI

/-- Models `walking::SidewalkSpot`, reduced to the two ways `scenario.rs`
constructs one: at a building, or at a border intersection. -/
inductive SidewalkSpot where
  | building (b : BuildingID)
  | atBorder (i : IntersectionID)
deriving DecidableEq, Repr

/-- Modelled from the spec: the `map_model::Map` query surface consumed
by the core (spec §6): building/road enumeration and geometry, the
bounding box, gps bounds, driving lanes at an intersection, and the
sidewalk-spot queries of the `walking` crate (whose code is not in the
excerpt) are carried as fields. -/
structure Map where
  name : String
  bounds : Bounds
  gpsBounds : GPSBounds
  buildings : List Building
  roads : List Road
  /-- Models `get_i(i).get_incoming_lanes(map, LaneType::Driving)`. -/
  incomingDrivingLanes : IntersectionID → List LaneID
  /-- Models `get_i(i).get_outgoing_lanes(map, LaneType::Driving)`. -/
  outgoingDrivingLanes : IntersectionID → List LaneID
  /-- Models `SidewalkSpot::end_at_border(i, map)`. -/
  sidewalkEndAtBorder : IntersectionID → Option SidewalkSpot
  /-- Models `SidewalkSpot::start_at_border(i, map)`. -/
  sidewalkStartAtBorder : IntersectionID → Option SidewalkSpot

/-- Models `driving::DrivingGoal`, as constructed by `pick_driving_goal`. -/
inductive DrivingGoal where
  | parkNear (b : BuildingID)
  | border (i : IntersectionID) (lane : LaneID)
deriving DecidableEq, Repr

/-- Models `sim::scenario::Neighborhood`. -/
structure Neighborhood where
  map_name : String
  name : String
  polygon : Polygon
deriving DecidableEq, Repr

/-- Models `sim::scenario::NeighborhoodBuilder`. -/
structure NeighborhoodBuilder where
  map_name : String
  name : String
  points : List LonLat

/-- The two fatal outcomes of `NeighborhoodBuilder::finalize`: the
`assert!(self.points.len() >= 3)` and the
`.expect("Polygon {name} has bad pt {pt}")` on a failed projection
(which names the polygon and the offending point). -/
inductive FinalizeErr where
  | tooFewPoints
  | badPoint (polygonName : String) (pt : LonLat)
deriving DecidableEq, Repr

/-- The projection loop inside `finalize`: project every point in
order, stopping fatally at the first point `Pt2D::from_gps` rejects. -/
def projectPoints (polygonName : String) (g : GPSBounds) :
    List LonLat → Except FinalizeErr (List Pt2D)
  | [] => .ok []
  | p :: ps =>
    match Pt2D.fromGps p g with
    | none => .error (.badPoint polygonName p)
    | some q => do
      let qs ← projectPoints polygonName g ps
      .ok (q :: qs)

/-- Models `NeighborhoodBuilder::finalize`: asserts at least 3 points, then
projects every point into map-local coordinates. -/
def NeighborhoodBuilder.finalize (b : NeighborhoodBuilder) (g : GPSBounds) :
    Except FinalizeErr Neighborhood :=
  if b.points.length < 3 then .error .tooFewPoints
  else do
    let pts ← projectPoints b.name g b.points
    .ok ⟨b.map_name, b.name, ⟨pts⟩⟩

/-- One `write!(f, "     {}    {}\n", lon, lat)` line of
`save_as_osmosis` (five spaces, longitude, four spaces, latitude).
The source formats `f64` values; the numeric rendering is abstracted as
the rational's rendering, which does not affect the line layout. -/
def osmosisLine (gps : LonLat) : String :=
  "     " ++ toString gps.longitude ++ "    " ++ toString gps.latitude

/-- Models `NeighborhoodBuilder::save_as_osmosis`, modelled as the sequence of
written lines (each `write!` in the source emits exactly one
`\n`-terminated line).  Indexing `self.points[0]` on an empty vector is
a panic, modelled as an error. -/
def NeighborhoodBuilder.saveAsOsmosis (b : NeighborhoodBuilder) :
    Except String (List String) :=
  let f : List String := []
  let f := f ++ [b.name]
  let f := f ++ ["1"]
  let f := b.points.foldl (fun acc gps => acc ++ [osmosisLine gps]) f
  match b.points.head? with
  | none => .error "index out of bounds: the len is 0 but the index is 0"
  | some p0 =>
    let f := f ++ [osmosisLine p0]
    let f := f ++ ["END"]
    let f := f ++ ["END"]
    .ok f

/-- Models `Neighborhood::find_matching_buildings`: every building whose
footprint centroid the polygon contains, in map enumeration order. -/
def Neighborhood.findMatchingBuildings (n : Neighborhood) (m : Map) :
    List BuildingID :=
  (m.buildings.filter fun b => n.polygon.containsPt (Pt2D.center b.points)).map
    Building.id

/-- Insertion into the model of `BTreeSet<RoadID>`: a strictly sorted
list ordered by the numeric road id. -/
def btreeInsert : List RoadID → RoadID → List RoadID
  | [], r => [r]
  | x :: xs, r =>
    if r.id < x.id then r :: x :: xs
    else if r.id = x.id then x :: xs
    else x :: btreeInsert xs r

/-- Models `Neighborhood::find_matching_roads`: every road whose first
center-line point the polygon contains, collected into a
`BTreeSet` (modelled as a sorted duplicate-free list). -/
def Neighborhood.findMatchingRoads (n : Neighborhood) (m : Map) :
    List RoadID :=
  m.roads.foldl
    (fun s r => if n.polygon.containsPt r.firstPt then btreeInsert s r.id else s)
    []

/-- Models `Neighborhood::make_everywhere`: the catch-all region, the map's
axis-aligned bounding rectangle. -/
def Neighborhood.makeEverywhere (m : Map) : Neighborhood :=
  { map_name := m.name
    name := "_everywhere_"
    polygon := ⟨[⟨0, 0⟩, ⟨m.bounds.maxX, 0⟩, ⟨m.bounds.maxX, m.bounds.maxY⟩,
                 ⟨0, m.bounds.maxY⟩, ⟨0, 0⟩]⟩ }

/-- The seeded random source (`XorShiftRng`), modelled as an infinite
draw stream plus a cursor; each primitive draw consumes one stream
element.  Two sources with the same seed are the same stream. -/
structure Rng where
  stream : Nat → Nat
  idx : Nat

/-- Consume one raw draw. -/
def Rng.next (r : Rng) : Nat × Rng :=
  (r.stream r.idx, ⟨r.stream, r.idx + 1⟩)

/-- The panics `Scenario::instantiate` can hit, modelled as errors. -/
inductive InstErr where
  /-- Models `assert!(sim.time == Tick::zero())`. -/
  | notTickZero
  /-- Models `panic!("Neighborhood {} isn't defined", n)`. -/
  | undefinedNeighborhood (name : String)
  /-- Models `rand` panics when `gen_range(low, high)` is called with `low >= high`. -/
  | badRange
  /-- Models `rng.choose(..).unwrap()` on an empty slice. -/
  | emptyChoice
  /-- Models `HashMap` indexing (`map[&key]`) on an absent key. -/
  | missingKey (name : String)
deriving DecidableEq, Repr

/-- Models `rng.gen_range(lo, hi)`: a uniform draw from the half-open interval
`[lo, hi)`; panics when `lo >= hi`. -/
def Rng.genRange (r : Rng) (lo hi : Nat) : Except InstErr (Nat × Rng) :=
  if lo < hi then
    let (n, r') := r.next
    .ok (lo + n % (hi - lo), r')
  else .error .badRange

/-- Models `rng.choose(slice)`: `None` on an empty slice (without consuming a
draw), otherwise a uniformly drawn element. -/
def Rng.choose {α : Type} (r : Rng) (l : List α) : Option α × Rng :=
  match l with
  | [] => (none, r)
  | x :: xs =>
    let (n, r') := r.next
    ((x :: xs).get? (n % (x :: xs).length), r')

/-- Models `abstutil::WeightedUsizeChoice`. -/
structure WeightedUsizeChoice where
  weights : List Nat
deriving DecidableEq, Repr

/-- Bucket lookup by cumulative weight. -/
def pickBucket : List Nat → Nat → Nat
  | [], _ => 0
  | w :: ws, n => if n < w then 0 else pickBucket ws (n - w) + 1

/-- Modelled from the spec: sampling `WeightedUsizeChoice` (the
`abstutil` code is not in the excerpt).  The spec calls it "a weighted
distribution over cars per building": one draw in `[0, total weight)`
selects the bucket, and the bucket index is the sampled count. -/
def WeightedUsizeChoice.sample (w : WeightedUsizeChoice) (r : Rng) :
    Except InstErr (Nat × Rng) :=
  match r.genRange 0 w.weights.sum with
  | .error e => .error e
  | .ok (n, r') => .ok (pickBucket w.weights n, r')

/-- Models `sim::parking::ParkedCar`, reduced to the fields the instantiation
pass reads: the car id and the owning building. -/
structure ParkedCar where
  car : CarID
  owner : BuildingID
deriving DecidableEq, Repr

/-- One call into the simulation's trip-starting interface, in the
order `instantiate` makes them: `start_trip_using_parked_car`,
`start_trip_just_walking`, or `start_trip_with_car_at_border`. -/
inductive Trip where
  | usingParkedCar (spawnTime : Tick) (car : CarID) (fromBldg : BuildingID)
      (goal : DrivingGoal)
  | justWalking (spawnTime : Tick) (start : SidewalkSpot) (goal : SidewalkSpot)
  | carAtBorder (spawnTime : Tick) (lane : LaneID) (goal : DrivingGoal)
deriving DecidableEq, Repr

/-- The spawn tick a trip was emitted with. -/
def Trip.spawnTime : Trip → Tick
  | .usingParkedCar t _ _ _ => t
  | .justWalking t _ _ => t
  | .carAtBorder t _ _ => t

/-- The simulation state the instantiation pass touches: the clock, the
seeded random source, the parking inventory, a fresh-car-id counter for
seeding, and the record of trip-starting calls made so far. -/
structure Sim where
  time : Tick
  rng : Rng
  parking : List ParkedCar
  carCounter : Nat
  trips : List Trip

/-- Models `parking_state.get_parked_cars_by_owner(b)`: the inventory entries
owned by `b`, in inventory order. -/
def Sim.parkedCarsByOwner (sim : Sim) (b : BuildingID) : List ParkedCar :=
  sim.parking.filter fun p => p.owner = b

/-- Modelled from the spec: `Spawner::seed_parked_cars` (not in the
excerpt) "populates parking inventory ... with per-building car counts
drawn from the declared weighted distribution, owned by the
neighborhood's matched buildings".  For each owner building in order,
one weighted draw fixes its car count and that many fresh cars are
added; road-capacity placement details are abstracted away. -/
def seedCarsForBuildings (dist : WeightedUsizeChoice) :
    List BuildingID → Sim → Except InstErr Sim
  | [], sim => .ok sim
  | b :: bs, sim =>
    match dist.sample sim.rng with
    | .error e => .error e
    | .ok (count, r') =>
      seedCarsForBuildings dist bs
        { sim with
          rng := r'
          parking := sim.parking ++ ((List.range count).map fun k =>
            ({ car := ⟨sim.carCounter + k⟩, owner := b } : ParkedCar))
          carCounter := sim.carCounter + count }

/-- Models `Sim::seed_parked_cars` (`helpers.rs`), delegating to the spawner;
the matched-roads argument only constrains physical placement, which
the model abstracts. -/
def Sim.seedParkedCars (sim : Sim) (ownerBldgs : List BuildingID)
    (_roads : List RoadID) (dist : WeightedUsizeChoice) : Except InstErr Sim :=
  seedCarsForBuildings dist ownerBldgs sim

/-- Models `sim::scenario::OriginDestination`. -/
inductive OriginDestination where
  | neighborhood (name : String)
  | border (i : IntersectionID)
deriving DecidableEq, Repr

/-- Models `HashMap` lookup over the association-list model. -/
def hmLookup {α : Type} (m : List (String × α)) (k : String) : Option α :=
  match m with
  | [] => none
  | (k', v) :: rest => if k' = k then some v else hmLookup rest k

/-- Models `HashMap::contains_key`. -/
def hmContains {α : Type} (m : List (String × α)) (k : String) : Bool :=
  (hmLookup m k).isSome

/-- Models `HashMap::insert`: the new binding replaces any existing one. -/
def hmInsert {α : Type} (m : List (String × α)) (k : String) (v : α) :
    List (String × α) :=
  (k, v) :: m.filter fun kv => kv.1 ≠ k

/-- Models `collect()` of a pair sequence into a `HashMap`. -/
def hmFromList {α : Type} (l : List (String × α)) : List (String × α) :=
  l.foldl (fun m kv => hmInsert m kv.1 kv.2) []

/-- Models `OriginDestination::pick_driving_goal`. -/
def OriginDestination.pickDrivingGoal (od : OriginDestination) (m : Map)
    (bldgsPer : List (String × List BuildingID)) (r : Rng) :
    Except InstErr (Option DrivingGoal × Rng) :=
  match od with
  | .neighborhood n =>
    match hmLookup bldgsPer n with
    | some bldgs =>
      match r.choose bldgs with
      | (some b, r') => .ok (some (.parkNear b), r')
      | (none, _) => .error .emptyChoice
    | none => .error (.undefinedNeighborhood n)
  | .border i =>
    match m.incomingDrivingLanes i with
    | [] => .ok (none, r)
    | l0 :: _ => .ok (some (.border i l0), r)

/-- Models `OriginDestination::pick_walking_goal`. -/
def OriginDestination.pickWalkingGoal (od : OriginDestination) (m : Map)
    (bldgsPer : List (String × List BuildingID)) (r : Rng) :
    Except InstErr (Option SidewalkSpot × Rng) :=
  match od with
  | .neighborhood n =>
    match hmLookup bldgsPer n with
    | some bldgs =>
      match r.choose bldgs with
      | (some b, r') => .ok (some (.building b), r')
      | (none, _) => .error .emptyChoice
    | none => .error (.undefinedNeighborhood n)
  | .border i => .ok (m.sidewalkEndAtBorder i, r)

/-- Models `sim::scenario::SpawnOverTime`. -/
structure SpawnOverTime where
  num_agents : Nat
  start_tick : Tick
  stop_tick : Tick
  start_from_neighborhood : String
  goal : OriginDestination

/-- Models `sim::scenario::BorderSpawnOverTime`. -/
structure BorderSpawnOverTime where
  num_peds : Nat
  num_cars : Nat
  start_tick : Tick
  stop_tick : Tick
  start_from_border : IntersectionID
  goal : OriginDestination

/-- Models `sim::scenario::SeedParkedCars`. -/
structure SeedParkedCars where
  neighborhood : String
  cars_per_building : WeightedUsizeChoice

/-- Models `sim::scenario::Scenario`. -/
structure Scenario where
  scenario_name : String
  map_name : String
  seed_parked_cars : List SeedParkedCars
  spawn_over_time : List SpawnOverTime
  border_spawn_over_time : List BorderSpawnOverTime

/-- The body of one iteration of the `0..s.num_agents` loop of the
`spawn_over_time` pass (`scenario.rs` lines 280-322): draw the spawn
tick, draw the origin building, then decide the mode.  If the origin
building has a parked car outside the reservation set, attempt a
driving goal: on success reserve the car and start a drive trip, on
failure drop the agent.  Only when no free parked car exists is a
walking goal attempted. -/
def spawnOneAgent (s : SpawnOverTime) (m : Map)
    (bldgsPer : List (String × List BuildingID)) (sim : Sim)
    (reserved : List CarID) : Except InstErr (Sim × List CarID) :=
  match sim.rng.genRange s.start_tick.tick s.stop_tick.tick with
  | .error e => .error e
  | .ok (t, r1) =>
    match hmLookup bldgsPer s.start_from_neighborhood with
    | none => .error (.missingKey s.start_from_neighborhood)
    | some bldgs =>
      match r1.choose bldgs with
      | (none, _) => .error .emptyChoice
      | (some fromBldg, r2) =>
        match List.find? (fun p : ParkedCar => !reserved.contains p.car)
            (Sim.parkedCarsByOwner { sim with rng := r2 } fromBldg) with
        | some parkedCar =>
          match s.goal.pickDrivingGoal m bldgsPer r2 with
          | .error e => .error e
          | .ok (some goal, r3) =>
            .ok ({ sim with
                    rng := r3
                    trips := sim.trips ++
                      [.usingParkedCar ⟨t⟩ parkedCar.car fromBldg goal] },
                 parkedCar.car :: reserved)
          | .ok (none, r3) => .ok ({ sim with rng := r3 }, reserved)
        | none =>
          match s.goal.pickWalkingGoal m bldgsPer r2 with
          | .error e => .error e
          | .ok (some goal, r3) =>
            .ok ({ sim with
                    rng := r3
                    trips := sim.trips ++
                      [.justWalking ⟨t⟩ (.building fromBldg) goal] },
                 reserved)
          | .ok (none, r3) => .ok ({ sim with rng := r3 }, reserved)

/-- The `for _ in 0..s.num_agents` loop. -/
def spawnAgents (s : SpawnOverTime) (m : Map)
    (bldgsPer : List (String × List BuildingID)) :
    Nat → Sim → List CarID → Except InstErr (Sim × List CarID)
  | 0, sim, reserved => .ok (sim, reserved)
  | n + 1, sim, reserved =>
    match spawnOneAgent s m bldgsPer sim reserved with
    | .error e => .error e
    | .ok (sim', reserved') => spawnAgents s m bldgsPer n sim' reserved'

/-- The `for s in &self.spawn_over_time` loop: each record first
checks that its origin neighborhood is defined (fatal otherwise), then
runs its agent loop; the reservation set is threaded across records. -/
def spawnOverTimePhase (m : Map)
    (neighborhoods : List (String × Neighborhood))
    (bldgsPer : List (String × List BuildingID)) :
    List SpawnOverTime → Sim → List CarID → Except InstErr (Sim × List CarID)
  | [], sim, reserved => .ok (sim, reserved)
  | s :: rest, sim, reserved =>
    if hmContains neighborhoods s.start_from_neighborhood then
      match spawnAgents s m bldgsPer s.num_agents sim reserved with
      | .error e => .error e
      | .ok (sim', reserved') =>
        spawnOverTimePhase m neighborhoods bldgsPer rest sim' reserved'
    else .error (.undefinedNeighborhood s.start_from_neighborhood)

/-- The `for _ in 0..s.num_peds` loop of a `border_spawn_over_time`
record: draw a spawn tick, then a walking goal; emit a walk trip from
the border sidewalk spot when the goal resolves, silently skip the
agent otherwise. -/
def borderPeds (s : BorderSpawnOverTime) (m : Map)
    (bldgsPer : List (String × List BuildingID)) (start : SidewalkSpot) :
    Nat → Sim → Except InstErr Sim
  | 0, sim => .ok sim
  | n + 1, sim =>
    match sim.rng.genRange s.start_tick.tick s.stop_tick.tick with
    | .error e => .error e
    | .ok (t, r1) =>
      match s.goal.pickWalkingGoal m bldgsPer r1 with
      | .error e => .error e
      | .ok (some goal, r2) =>
        borderPeds s m bldgsPer start n
          { sim with
            rng := r2
            trips := sim.trips ++ [.justWalking ⟨t⟩ start goal] }
      | .ok (none, r2) => borderPeds s m bldgsPer start n { sim with rng := r2 }

/-- The `for _ in 0..s.num_cars` loop of a `border_spawn_over_time`
record: draw a spawn tick, then a driving goal; emit a drive trip from
the first outgoing driving lane when the goal resolves.  The spawner's
own consumption of the random source inside
`start_trip_with_car_at_border` is outside the excerpt and abstracted
(the trip-starting interface just records the tuple, per spec §2). -/
def borderCars (s : BorderSpawnOverTime) (m : Map)
    (bldgsPer : List (String × List BuildingID)) (lane : LaneID) :
    Nat → Sim → Except InstErr Sim
  | 0, sim => .ok sim
  | n + 1, sim =>
    match sim.rng.genRange s.start_tick.tick s.stop_tick.tick with
    | .error e => .error e
    | .ok (t, r1) =>
      match s.goal.pickDrivingGoal m bldgsPer r1 with
      | .error e => .error e
      | .ok (some goal, r2) =>
        borderCars s m bldgsPer lane n
          { sim with
            rng := r2
            trips := sim.trips ++ [.carAtBorder ⟨t⟩ lane goal] }
      | .ok (none, r2) => borderCars s m bldgsPer lane n { sim with rng := r2 }

/-- One `border_spawn_over_time` record: the pedestrian sub-population
runs only when the border has a start sidewalk spot (warn-and-skip
otherwise); the car sub-population runs only when the border has an
outgoing driving lane (warn-and-skip otherwise). -/
def borderRecordCars (s : BorderSpawnOverTime) (m : Map)
    (bldgsPer : List (String × List BuildingID)) (sim : Sim) :
    Except InstErr Sim :=
  match m.outgoingDrivingLanes s.start_from_border with
  | lane0 :: _ => borderCars s m bldgsPer lane0 s.num_cars sim
  | [] => .ok sim

/-- One `border_spawn_over_time` record, first half: the pedestrian
sub-population runs only when the border has a start sidewalk spot
(warn-and-skip otherwise), then the car sub-population follows. -/
def borderRecord (s : BorderSpawnOverTime) (m : Map)
    (bldgsPer : List (String × List BuildingID)) (sim : Sim) :
    Except InstErr Sim :=
  match m.sidewalkStartAtBorder s.start_from_border with
  | some start =>
    match borderPeds s m bldgsPer start s.num_peds sim with
    | .error e => .error e
    | .ok sim2 => borderRecordCars s m bldgsPer sim2
  | none => borderRecordCars s m bldgsPer sim

/-- The `for s in &self.border_spawn_over_time` loop. -/
def borderPhase (m : Map) (bldgsPer : List (String × List BuildingID)) :
    List BorderSpawnOverTime → Sim → Except InstErr Sim
  | [], sim => .ok sim
  | s :: rest, sim =>
    match borderRecord s m bldgsPer sim with
    | .error e => .error e
    | .ok sim' => borderPhase m bldgsPer rest sim'

/-- The `for s in &self.seed_parked_cars` loop: each record checks its
neighborhood is defined (fatal otherwise) and seeds parked cars over
the neighborhood's matched buildings and roads. -/
def seedPhase (neighborhoods : List (String × Neighborhood))
    (bldgsPer : List (String × List BuildingID))
    (roadsPer : List (String × List RoadID)) :
    List SeedParkedCars → Sim → Except InstErr Sim
  | [], sim => .ok sim
  | s :: rest, sim =>
    if hmContains neighborhoods s.neighborhood then
      match hmLookup bldgsPer s.neighborhood with
      | none => .error (.missingKey s.neighborhood)
      | some bldgs =>
        match hmLookup roadsPer s.neighborhood with
        | none => .error (.missingKey s.neighborhood)
        | some roads =>
          match sim.seedParkedCars bldgs roads s.cars_per_building with
          | .error e => .error e
          | .ok sim' => seedPhase neighborhoods bldgsPer roadsPer rest sim'
    else .error (.undefinedNeighborhood s.neighborhood)

/-- The body of `Scenario::instantiate` after the tick-zero assertion.

`persisted` is the content of the "neighborhoods" storage namespace
for this map (the result of `Neighborhood::load_all`), passed
explicitly since the model has no file system.  `order` is the
iteration order of the `neighborhoods : HashMap` used by the two
memoization loops (lines 251-258); `HashMap` iteration order is
unspecified, so it is a parameter, constrained in theorems to range
over permutations of the map's entries. -/
def instantiateBody (sc : Scenario) (persisted : List (String × Neighborhood))
    (order : List (String × Neighborhood)) (sim : Sim) (m : Map) :
    Except InstErr Sim :=
  let neighborhoods :=
    hmInsert (hmFromList persisted) "_everywhere_" (Neighborhood.makeEverywhere m)
  let bldgsPer := order.map fun kv => (kv.1, kv.2.findMatchingBuildings m)
  let roadsPer := order.map fun kv => (kv.1, kv.2.findMatchingRoads m)
  match seedPhase neighborhoods bldgsPer roadsPer sc.seed_parked_cars sim with
  | .error e => .error e
  | .ok sim1 =>
    match spawnOverTimePhase m neighborhoods bldgsPer sc.spawn_over_time sim1 [] with
    | .error e => .error e
    | .ok (sim2, _) => borderPhase m bldgsPer sc.border_spawn_over_time sim2

/-- Models `Scenario::instantiate`: asserts the simulation clock is at tick
zero, then seeds parked cars, expands `spawn_over_time`, and expands
`border_spawn_over_time`. -/
def Scenario.instantiate (sc : Scenario)
    (persisted : List (String × Neighborhood))
    (order : List (String × Neighborhood)) (sim : Sim) (m : Map) :
    Except InstErr Sim :=
  if sim.time ≠ Tick.zero then .error .notTickZero
  else instantiateBody sc persisted order sim m

/-!
## The run loop (`helpers.rs`)

The spec treats `Sim::step` as an opaque deterministic transition that
advances time by exactly one tick and returns the events of that tick
(spec §4.4).  It is modelled as a state holding the current tick and a
fixed event schedule: stepping from tick `t` moves to tick `t + 1` and
emits `schedule (t + 1)`.  The event type is abstract (any type with
decidable equality).
-/

/-- The opaque simulation seen by `run_until_expectations_met`. -/
structure RunSim (α : Type) where
  time : Nat
  schedule : Nat → List α

/-- Models `self.step(&map, &control_map)`: advance one tick, return that
tick's events. -/
def RunSim.step {α : Type} (s : RunSim α) : RunSim α × List α :=
  ({ s with time := s.time + 1 }, s.schedule (s.time + 1))

/-- The `for ev in self.step(..)` matching loop: compare each emitted
event, in emission order, with the head of the expectation queue,
popping on equality; returns the remaining queue. -/
def matchEvents {α : Type} [DecidableEq α] : List α → List α → List α
  | [], exps => exps
  | _ :: _, [] => []
  | e :: rest, x :: xs =>
    if e = x then matchEvents rest xs else matchEvents rest (x :: xs)

/-- The loop of `run_until_expectations_met`, with explicit fuel.  Each
iteration: return successfully if the queue is empty; otherwise step,
match that tick's events against the queue, return successfully if the
queue emptied, fail fatally with the remaining queue if the clock hit
`timeLimit`, else continue.  The fuel only bounds the recursion; with
`timeLimit - time` fuel it never runs out when `time < timeLimit`
(the source loop diverges when entered with `time >= timeLimit`, which
the fuel-out error stands in for). -/
def runUEMFuel {α : Type} [DecidableEq α] :
    Nat → RunSim α → List α → Nat → Except (List α) (RunSim α)
  | fuel, sim, exps, timeLimit =>
    if exps = [] then .ok sim
    else
      match fuel with
      | 0 => .error exps
      | fuel + 1 =>
        let stepped := sim.step
        let exps' := matchEvents stepped.2 exps
        if exps' = [] then .ok stepped.1
        else if stepped.1.time = timeLimit then .error exps'
        else runUEMFuel fuel stepped.1 exps' timeLimit

/-- Models `Sim::run_until_expectations_met` (`helpers.rs` lines 31-64),
returning the final simulation state on success and the unmet
remainder of the expectation queue on the fatal time-limit panic. -/
def runUntilExpectationsMet {α : Type} [DecidableEq α] (sim : RunSim α)
    (allExpectations : List α) (timeLimit : Nat) :
    Except (List α) (RunSim α) :=
  runUEMFuel (timeLimit - sim.time) sim allExpectations timeLimit

/-- All events emitted by the step calls made while the clock is below
`timeLimit`: the steps advancing the clock to `time+1, ..., timeLimit`,
concatenated in emission order. -/
def emittedEvents {α : Type} (sim : RunSim α) (timeLimit : Nat) : List α :=
  (List.range' (sim.time + 1) (timeLimit - sim.time)).flatMap sim.schedule

/-!
## Derived observations and well-formedness
-/

/-- The parked-car identifiers passed to `start_trip_using_parked_car`,
in emission order. -/
def parkedCarsOf (trips : List Trip) : List CarID :=
  trips.filterMap fun t =>
    match t with
    | .usingParkedCar _ c _ _ => some c
    | _ => none

/-- The trip record of a successful instantiation, `none` on a panic. -/
def simResultTrips : Except InstErr Sim → Option (List Trip)
  | .ok sim => some sim.trips
  | .error _ => none

/-- The trip record after one agent of the `spawn_over_time` loop,
`none` on a panic. -/
def agentResultTrips : Except InstErr (Sim × List CarID) → Option (List Trip)
  | .ok (sim, _) => some sim.trips
  | .error _ => none

/-- Membership of a point in the map-local bounding box. -/
def Pt2D.inBox (p : Pt2D) (b : Bounds) : Bool :=
  decide (0 ≤ p.x ∧ p.x ≤ b.maxX ∧ 0 ≤ p.y ∧ p.y ≤ b.maxY)

/-- Well-formedness of the external map, as the out-of-scope
`map_model` collaborator guarantees it: the bounding box is
non-degenerate and bounds every building centroid and every road's
center line, and center lines are non-empty. -/
def Map.WF (m : Map) : Prop :=
  0 ≤ m.bounds.maxX ∧ 0 ≤ m.bounds.maxY ∧
  (∀ b ∈ m.buildings, Pt2D.inBox (Pt2D.center b.points) m.bounds = true) ∧
  (∀ r ∈ m.roads, r.center_pts ≠ [] ∧ Pt2D.inBox r.firstPt m.bounds = true)

/-!
## Concrete fixtures

Small closed maps, scenarios and simulation states used to evaluate
the definitions on explicit inputs.
-/

/-- A deterministic draw stream: every raw draw is `0`. -/
def rng0 : Rng := ⟨fun _ => 0, 0⟩

/-- A cold simulation at tick zero with empty inventory and trip log. -/
def sim0 : Sim :=
  { time := Tick.zero, rng := rng0, parking := [], carCounter := 0, trips := [] }

/-- A simulation whose clock has already advanced to tick one. -/
def sim1 : Sim := { sim0 with time := ⟨1⟩ }

/-- A two-building, one-road map whose border intersections have no
incoming driving lanes but do have sidewalks. -/
def map0 : Map :=
  { name := "mini"
    bounds := ⟨10, 10⟩
    gpsBounds := ⟨0, 10, 0, 10⟩
    buildings := [⟨⟨0⟩, [⟨1, 1⟩]⟩, ⟨⟨1⟩, [⟨2, 3⟩]⟩]
    roads := [⟨⟨0⟩, [⟨1, 2⟩, ⟨3, 4⟩]⟩]
    incomingDrivingLanes := fun _ => []
    outgoingDrivingLanes := fun _ => [⟨3⟩]
    sidewalkEndAtBorder := fun i => some (.atBorder i)
    sidewalkStartAtBorder := fun i => some (.atBorder i) }

/-- A scenario with no demand records. -/
def scEmpty : Scenario := ⟨"empty", "mini", [], [], []⟩

/-- Models a name-to-buildings memoization with one neighborhood `n`
matching the single building `0`. -/
def bp1 : List (String × List BuildingID) := [("n", [⟨0⟩])]

/-- A one-agent record whose goal is a border with no incoming driving
lane on `map0`, so its driving goal never resolves. -/
def s1 : SpawnOverTime := ⟨1, ⟨0⟩, ⟨5⟩, "n", .border ⟨9⟩⟩

/-- A one-agent record with a neighborhood goal, for the walking path. -/
def s2 : SpawnOverTime := ⟨1, ⟨0⟩, ⟨5⟩, "n", .neighborhood "n"⟩

/-- A cold simulation whose building `0` owns one parked car. -/
def simC1 : Sim := { sim0 with parking := [⟨⟨5⟩, ⟨0⟩⟩] }

/-- A one-building map for the instantiation fixtures. -/
def mapC3 : Map :=
  { name := "mini"
    bounds := ⟨10, 10⟩
    gpsBounds := ⟨0, 10, 0, 10⟩
    buildings := [⟨⟨0⟩, [⟨1, 1⟩]⟩]
    roads := []
    incomingDrivingLanes := fun _ => []
    outgoingDrivingLanes := fun _ => []
    sidewalkEndAtBorder := fun _ => none
    sidewalkStartAtBorder := fun _ => none }

/-- A scenario seeding one car per building everywhere and spawning two
agents from everywhere to everywhere. -/
def scC3 : Scenario :=
  ⟨"c3", "mini", [⟨"_everywhere_", ⟨[0, 2]⟩⟩],
   [⟨2, ⟨0⟩, ⟨5⟩, "_everywhere_", .neighborhood "_everywhere_"⟩], []⟩

/-- The iteration order of the single-entry neighborhood table of
`scC3` over `mapC3`. -/
def orderC3 : List (String × Neighborhood) :=
  [("_everywhere_", Neighborhood.makeEverywhere mapC3)]

/-- The trip sequence `scC3` instantiates: one drive trip using the
seeded car, then one walk trip (the car is already reserved). -/
def tripsC3 : List Trip :=
  [.usingParkedCar ⟨0⟩ ⟨0⟩ ⟨0⟩ (.parkNear ⟨0⟩),
   .justWalking ⟨0⟩ (.building ⟨0⟩) (.building ⟨0⟩)]

/-- A one-agent record spawning inside ticks `[3, 7)`. -/
def sC4 : SpawnOverTime := ⟨1, ⟨3⟩, ⟨7⟩, "n", .neighborhood "n"⟩

/-- The state after running `sC4`'s single agent from `sim0`: one walk
trip at tick 3, three raw draws consumed. -/
def outC4 : Sim × List CarID :=
  ({ sim0 with
      rng := ⟨rng0.stream, 3⟩
      trips := [.justWalking ⟨3⟩ (.building ⟨0⟩) (.building ⟨0⟩)] }, [])

/-- A border record spawning one pedestrian and one car in `[2, 9)`. -/
def sB : BorderSpawnOverTime := ⟨1, 1, ⟨2⟩, ⟨9⟩, ⟨5⟩, .neighborhood "n"⟩

/-- A map whose borders have sidewalks and one outgoing driving lane. -/
def mapB : Map :=
  { mapC3 with
      outgoingDrivingLanes := fun _ => [⟨3⟩]
      sidewalkStartAtBorder := fun i => some (.atBorder i) }

/-- The state after running `sB` from `sim0`: one border walk trip and
one border drive trip, four raw draws consumed. -/
def outB : Sim :=
  { sim0 with
      rng := ⟨rng0.stream, 4⟩
      trips := [.justWalking ⟨2⟩ (.atBorder ⟨5⟩) (.building ⟨0⟩),
                .carAtBorder ⟨2⟩ ⟨3⟩ (.parkNear ⟨0⟩)] }

/-- A persisted neighborhood named `n` over `mapC3`'s map name. -/
def nbh1 : Neighborhood := ⟨"mini", "n", ⟨[⟨0, 0⟩, ⟨4, 0⟩, ⟨4, 4⟩]⟩⟩

/-- The persisted-neighborhood store for the determinism fixture. -/
def persistedC5 : List (String × Neighborhood) := [("n", nbh1)]

/-- One iteration order of the neighborhood table built from
`persistedC5` over `mapC3`. -/
def o1C5 : List (String × Neighborhood) :=
  [("_everywhere_", Neighborhood.makeEverywhere mapC3), ("n", nbh1)]

/-- The other iteration order of the same table. -/
def o2C5 : List (String × Neighborhood) :=
  [("n", nbh1), ("_everywhere_", Neighborhood.makeEverywhere mapC3)]

/-- A geographic bounding box for the `finalize` fixtures. -/
def gFix : GPSBounds := ⟨0, 10, 0, 10⟩

/-- A three-point builder all of whose points project. -/
def bOk : NeighborhoodBuilder := ⟨"mini", "tri", [⟨1, 1⟩, ⟨2, 1⟩, ⟨2, 2⟩]⟩

/-- A three-point builder whose second point lies outside `gFix`. -/
def bBad : NeighborhoodBuilder := ⟨"mini", "tri2", [⟨1, 1⟩, ⟨11, 1⟩, ⟨2, 2⟩]⟩

/-- A builder with fewer than three points. -/
def bShort : NeighborhoodBuilder := ⟨"mini", "short", [⟨1, 1⟩]⟩

/-- A two-point builder for the osmosis export fixture. -/
def bFix : NeighborhoodBuilder := ⟨"mini", "nbf", [⟨1, 2⟩, ⟨3, 4⟩]⟩

/-- An opaque simulation for the run loop: at tick `t` it emits the
single event `t`. -/
def rsFix : RunSim Nat := ⟨0, fun t => [t]⟩

/-!
## Theorems
-/

/-- Pushing single lines onto a buffer with `foldl` appends the mapped
list. -/
theorem foldl_pushLine {α : Type} (g : α → String) (l : List α) :
    ∀ f : List String,
      List.foldl (fun acc x => acc ++ [g x]) f l = f ++ l.map g := by
  induction l with
  | nil => intro f; simp
  | cons x xs ih => intro f; simp [ih]

/-- C9: for every `NeighborhoodBuilder` with a non-empty point list,
`save_as_osmosis` writes: line 1 the name, line 2 the literal `1`, one
space-padded coordinate line per vertex in order, one extra line
repeating the first vertex, then exactly two `END` lines. -/
theorem saveAsOsmosis_format (b : NeighborhoodBuilder) (p0 : LonLat)
    (rest : List LonLat) (h : b.points = p0 :: rest) :
    b.saveAsOsmosis =
      .ok ([b.name, "1"] ++ b.points.map osmosisLine ++
           [osmosisLine p0, "END", "END"]) := by
  unfold NeighborhoodBuilder.saveAsOsmosis
  rw [h]
  simp [foldl_pushLine]

/-- Witness for C9 at the concrete two-point builder `bFix`. -/
theorem saveAsOsmosis_format_witness :
    bFix.saveAsOsmosis =
      .ok ([bFix.name, "1"] ++ bFix.points.map osmosisLine ++
           [osmosisLine ⟨1, 2⟩, "END", "END"]) :=
  saveAsOsmosis_format bFix ⟨1, 2⟩ [⟨3, 4⟩] rfl

/-- C10: called with an empty expectation list,
`run_until_expectations_met` returns successfully at once, before any
`step` call, leaving the simulation state exactly as it was at entry. -/
theorem runUEM_empty_immediate {α : Type} [DecidableEq α] (sim : RunSim α)
    (timeLimit : Nat) :
    runUntilExpectationsMet sim [] timeLimit = .ok sim := by
  unfold runUntilExpectationsMet runUEMFuel
  simp

/-- When every point projects, the projection loop succeeds with the
projections in order. -/
theorem projectPoints_all_some (name : String) (g : GPSBounds) :
    ∀ l : List LonLat, (∀ p ∈ l, (Pt2D.fromGps p g).isSome) →
      projectPoints name g l = .ok (l.filterMap fun p => Pt2D.fromGps p g) := by
  intro l
  induction l with
  | nil => intro _; simp [projectPoints]
  | cons p ps ih =>
    intro h
    obtain ⟨q, hq⟩ := Option.isSome_iff_exists.mp (h p (by simp))
    have hrec := ih fun r hr => h r (by simp [hr])
    simp only [projectPoints, hq, hrec, List.filterMap_cons]
    rfl

/-- The projection loop fails at the first unprojectable point, naming
it. -/
theorem projectPoints_first_bad (name : String) (g : GPSBounds) :
    ∀ (pre : List LonLat) (p : LonLat) (post : List LonLat),
      (∀ q ∈ pre, (Pt2D.fromGps q g).isSome) → Pt2D.fromGps p g = none →
      projectPoints name g (pre ++ p :: post) = .error (.badPoint name p) := by
  intro pre
  induction pre with
  | nil => intro p post _ hbad; simp [projectPoints, hbad]
  | cons q qs ih =>
    intro p post h hbad
    obtain ⟨r, hr⟩ := Option.isSome_iff_exists.mp (h q (by simp))
    have hrec := ih p post (fun x hx => h x (by simp [hx])) hbad
    have hrec2 : projectPoints name g (qs.append (p :: post)) =
        Except.error (FinalizeErr.badPoint name p) := hrec
    simp only [List.cons_append, projectPoints, hr, hrec, hrec2]
    rfl

/-- C8: `finalize` fails fatally on fewer than 3 points; with at least
3 points it fails fatally at the first unprojectable point, naming the
polygon and that point; and when every point projects it returns a
`Neighborhood` with the builder's name and map name whose polygon is
the in-order projection of all points. -/
theorem finalize_spec (b : NeighborhoodBuilder) (g : GPSBounds) :
    (b.points.length < 3 → b.finalize g = .error .tooFewPoints) ∧
    (3 ≤ b.points.length → (∀ p ∈ b.points, (Pt2D.fromGps p g).isSome) →
      b.finalize g =
        .ok ⟨b.map_name, b.name, ⟨b.points.filterMap fun p => Pt2D.fromGps p g⟩⟩) ∧
    (∀ pre p post, 3 ≤ b.points.length → b.points = pre ++ p :: post →
      (∀ q ∈ pre, (Pt2D.fromGps q g).isSome) → Pt2D.fromGps p g = none →
      b.finalize g = .error (.badPoint b.name p)) := by
  refine ⟨?_, ?_, ?_⟩
  · intro h
    simp [NeighborhoodBuilder.finalize, h]
  · intro h hall
    rw [NeighborhoodBuilder.finalize, if_neg (Nat.not_lt.mpr h),
        projectPoints_all_some b.name g b.points hall]
    rfl
  · intro pre p post hlen heq hpre hbad
    rw [NeighborhoodBuilder.finalize, if_neg (Nat.not_lt.mpr hlen), heq,
        projectPoints_first_bad b.name g pre p post hpre hbad]
    rfl

/-- Witness for C8: the too-short, the all-good and the bad-point
builders, each evaluated concretely. -/
theorem finalize_spec_witness :
    bShort.points.length < 3 ∧
    bShort.finalize gFix = .error .tooFewPoints ∧
    bOk.finalize gFix = .ok ⟨"mini", "tri", ⟨[⟨1, 1⟩, ⟨2, 1⟩, ⟨2, 2⟩]⟩⟩ ∧
    bBad.finalize gFix = .error (.badPoint bBad.name ⟨11, 1⟩) :=
  ⟨by decide,
   (finalize_spec bShort gFix).1 (by decide),
   by
     rw [(finalize_spec bOk gFix).2.1 (by decide) (by decide)]
     norm_num [bOk, gFix, Pt2D.fromGps, List.filterMap_cons],
   (finalize_spec bBad gFix).2.2 [⟨1, 1⟩] ⟨11, 1⟩ [⟨2, 2⟩] (by decide) rfl
     (by decide) (by decide)⟩

/-- A successful result is flagged ok. -/
theorem isOk_ok {e b : Type} (x : b) : (Except.ok x : Except e b).isOk = true := rfl

/-- A failed result is not flagged ok. -/
theorem isOk_error {e b : Type} (x : e) : (Except.error x : Except e b).isOk = false := rfl

/-- The events returned by a step are the next tick's schedule. -/
theorem step_snd {a : Type} (sim : RunSim a) :
    sim.step.2 = sim.schedule (sim.time + 1) := rfl

/-- A step advances the clock by one tick. -/
theorem step_fst_time {a : Type} (sim : RunSim a) :
    sim.step.1.time = sim.time + 1 := rfl

/-- Matching consumes nothing from an already-empty queue. -/
theorem matchEvents_nil {α : Type} [DecidableEq α] (l : List α) :
    matchEvents l [] = [] := by
  cases l <;> rfl

/-- Matching against an empty stream changes nothing. -/
theorem matchEvents_nil_left {α : Type} [DecidableEq α] (exps : List α) :
    matchEvents [] exps = exps := rfl

/-- Matching a concatenated event stream matches the pieces in turn. -/
theorem matchEvents_append {α : Type} [DecidableEq α] (a : List α) :
    ∀ b exps : List α,
      matchEvents (a ++ b) exps = matchEvents b (matchEvents a exps) := by
  induction a with
  | nil => intro b exps; rfl
  | cons e rest ih =>
    intro b exps
    cases exps with
    | nil => simp [matchEvents, matchEvents_nil]
    | cons x xs =>
      by_cases h : e = x <;> simp [matchEvents, h, ih]

/-- Greedy in-order matching empties the queue exactly when the queue
is an in-order sub-sequence of the event stream. -/
theorem matchEvents_eq_nil_iff {α : Type} [DecidableEq α] (l : List α) :
    ∀ exps : List α, matchEvents l exps = [] ↔ List.Sublist exps l := by
  induction l with
  | nil =>
    intro exps
    cases exps with
    | nil => simp [matchEvents]
    | cons x xs => simp [matchEvents]
  | cons e rest ih =>
    intro exps
    cases exps with
    | nil => simp [matchEvents_nil]
    | cons x xs =>
      by_cases h : e = x
      · subst h
        rw [matchEvents, if_pos rfl, ih, List.cons_sublist_cons]
      · rw [matchEvents, if_neg h, ih]
        constructor
        · intro hs
          exact List.sublist_cons_of_sublist e hs
        · intro hs
          cases hs with
          | cons _ h2 => exact h2
          | cons₂ => exact absurd rfl h

/-- Past the time limit no further events are counted. -/
theorem emittedEvents_exhausted {α : Type} (sim : RunSim α) (timeLimit : Nat)
    (h : timeLimit ≤ sim.time) : emittedEvents sim timeLimit = [] := by
  unfold emittedEvents
  rw [Nat.sub_eq_zero_of_le h]
  rfl

/-- Splitting the emitted stream at the first step. -/
theorem emittedEvents_step {α : Type} (sim : RunSim α) (timeLimit : Nat)
    (h : sim.time < timeLimit) :
    emittedEvents sim timeLimit =
      sim.schedule (sim.time + 1) ++ emittedEvents sim.step.1 timeLimit := by
  unfold emittedEvents RunSim.step
  have h2 : timeLimit - sim.time = (timeLimit - (sim.time + 1)) + 1 := by omega
  rw [h2, List.range'_succ, List.flatMap_cons]

/-- Behavior of the fuelled loop when the fuel equals the remaining
distance to the time limit: it succeeds exactly when greedy matching of
the whole remaining event stream empties the queue, and on failure the
panic payload is the greedy remainder. -/
theorem runUEMFuel_spec {α : Type} [DecidableEq α] :
    ∀ (fuel : Nat) (sim : RunSim α) (exps : List α) (timeLimit : Nat),
      sim.time + fuel = timeLimit →
      ((runUEMFuel fuel sim exps timeLimit).isOk = true ↔
         matchEvents (emittedEvents sim timeLimit) exps = []) ∧
      (∀ r, runUEMFuel fuel sim exps timeLimit = .error r →
         r = matchEvents (emittedEvents sim timeLimit) exps) := by
  intro fuel
  induction fuel with
  | zero =>
    intro sim exps timeLimit hf
    have hem : emittedEvents sim timeLimit = [] :=
      emittedEvents_exhausted sim timeLimit (by omega)
    rw [runUEMFuel, hem, matchEvents_nil_left]
    by_cases h : exps = []
    · subst h
      refine ⟨by simp [isOk_ok], ?_⟩
      intro r hr
      exact Except.noConfusion hr
    · rw [if_neg h]
      refine ⟨by simp [isOk_error, h], ?_⟩
      intro r hr
      exact (Except.error.inj hr).symm
  | succ fuel ih =>
    intro sim exps timeLimit hf
    have hlt : sim.time < timeLimit := by omega
    have hem := emittedEvents_step sim timeLimit hlt
    by_cases hx : exps = []
    · subst hx
      rw [runUEMFuel, if_pos rfl, matchEvents_nil]
      refine ⟨by simp [isOk_ok], ?_⟩
      intro r hr
      exact Except.noConfusion hr
    · rw [hem, matchEvents_append, runUEMFuel.eq_def]
      simp only [if_neg hx, step_snd]
      by_cases hA : matchEvents (sim.schedule (sim.time + 1)) exps = []
      · rw [if_pos hA, hA, matchEvents_nil]
        refine ⟨by simp [isOk_ok], ?_⟩
        intro r hr
        exact Except.noConfusion hr
      · rw [if_neg hA]
        by_cases ht : sim.step.1.time = timeLimit
        · rw [if_pos ht]
          have hrest : emittedEvents sim.step.1 timeLimit = [] :=
            emittedEvents_exhausted sim.step.1 timeLimit (by rw [ht])
          rw [hrest, matchEvents_nil_left]
          refine ⟨by simp [isOk_error, hA], ?_⟩
          intro r hr
          exact (Except.error.inj hr).symm
        · rw [if_neg ht]
          have hf2 : sim.step.1.time + fuel = timeLimit := by
            have hstep : sim.step.1.time = sim.time + 1 := step_fst_time sim
            omega
          exact ih sim.step.1 (matchEvents (sim.schedule (sim.time + 1)) exps)
            timeLimit hf2

/-- C2: entered below the time limit, `run_until_expectations_met`
returns successfully iff the expectation sequence is an in-order
sub-sequence of the events emitted by the step calls made before the
clock reaches `time_limit`; otherwise it fails fatally carrying exactly
the remaining unmet expectations (which are then never empty); and an
empty queue returns at once with the state untouched, before any step
call. -/
theorem runUntilExpectationsMet_spec {α : Type} [DecidableEq α]
    (sim : RunSim α) (exps : List α) (timeLimit : Nat)
    (h : sim.time < timeLimit) :
    ((runUntilExpectationsMet sim exps timeLimit).isOk = true ↔
       List.Sublist exps (emittedEvents sim timeLimit)) ∧
    (∀ r, runUntilExpectationsMet sim exps timeLimit = .error r →
       r = matchEvents (emittedEvents sim timeLimit) exps ∧ r ≠ []) ∧
    (exps = [] → runUntilExpectationsMet sim exps timeLimit = .ok sim) := by
  have hf : sim.time + (timeLimit - sim.time) = timeLimit := by omega
  have hmain := runUEMFuel_spec (timeLimit - sim.time) sim exps timeLimit hf
  unfold runUntilExpectationsMet
  refine ⟨?_, ?_, ?_⟩
  · rw [hmain.1, matchEvents_eq_nil_iff]
  · intro r hr
    refine ⟨hmain.2 r hr, ?_⟩
    intro hnil
    have hok : (runUEMFuel (timeLimit - sim.time) sim exps timeLimit).isOk = true := by
      rw [hmain.1, ← hmain.2 r hr, hnil]
    rw [hr] at hok
    exact Bool.false_ne_true hok
  · intro hx
    subst hx
    rw [runUEMFuel.eq_def]
    simp

/-- Witness for C2 at a concrete three-tick schedule. -/
theorem runUntilExpectationsMet_spec_witness :
    rsFix.time < 3 ∧
    ((runUntilExpectationsMet rsFix [2] 3).isOk = true ↔
       List.Sublist [2] (emittedEvents rsFix 3)) :=
  ⟨by decide, (runUntilExpectationsMet_spec rsFix [2] 3 (by decide)).1⟩

/-- Any point inside the map's bounding box is contained in the
`_everywhere_` rectangle. -/
theorem containsPt_everywhere (m : Map) (p : Pt2D)
    (hp : Pt2D.inBox p m.bounds = true) :
    (Neighborhood.makeEverywhere m).polygon.containsPt p = true := by
  rw [Pt2D.inBox, decide_eq_true_eq] at hp
  obtain ⟨h1, h2, h3, h4⟩ := hp
  rw [Neighborhood.makeEverywhere, Polygon.containsPt, decide_eq_true_eq]
  exact ⟨⟨⟨0, 0⟩, by simp, h1⟩, ⟨⟨m.bounds.maxX, 0⟩, by simp, h2⟩,
         ⟨⟨0, 0⟩, by simp, h3⟩, ⟨⟨0, m.bounds.maxY⟩, by simp, h4⟩⟩

/-- On a well-formed map the `_everywhere_` region matches every
building, in enumeration order. -/
theorem everywhere_buildings (m : Map) (h : m.WF) :
    (Neighborhood.makeEverywhere m).findMatchingBuildings m =
      m.buildings.map Building.id := by
  obtain ⟨_, _, hb, _⟩ := h
  unfold Neighborhood.findMatchingBuildings
  have hfl : List.filter
      (fun b => (Neighborhood.makeEverywhere m).polygon.containsPt
        (Pt2D.center b.points)) m.buildings = m.buildings :=
    List.filter_eq_self.mpr fun b hbm => containsPt_everywhere m _ (hb b hbm)
  rw [hfl]

/-- Membership in the sorted-set insertion. -/
theorem mem_btreeInsert (r : RoadID) :
    ∀ (s : List RoadID) (a : RoadID), a ∈ btreeInsert s r ↔ a = r ∨ a ∈ s := by
  intro s
  induction s with
  | nil => intro a; simp [btreeInsert]
  | cons x xs ih =>
    intro a
    rw [btreeInsert]
    by_cases h1 : r.id < x.id
    · rw [if_pos h1]
      simp [List.mem_cons]
    · rw [if_neg h1]
      by_cases h2 : r.id = x.id
      · rw [if_pos h2]
        have hrx : r = x := by
          cases r
          cases x
          simpa using h2
        subst hrx
        simp [List.mem_cons]
      · rw [if_neg h2]
        simp [List.mem_cons, ih]
        tauto

/-- Membership in the road-matching fold. -/
theorem mem_roadsFold (pred : Road → Bool) :
    ∀ (l : List Road) (s : List RoadID) (a : RoadID),
      (a ∈ l.foldl (fun acc r => if pred r then btreeInsert acc r.id else acc) s) ↔
        a ∈ s ∨ ∃ r ∈ l, pred r = true ∧ a = r.id := by
  intro l
  induction l with
  | nil => intro s a; simp
  | cons x xs ih =>
    intro s a
    rw [List.foldl_cons]
    by_cases hp : pred x = true
    · rw [if_pos hp, ih]
      simp only [mem_btreeInsert, List.mem_cons, hp]
      constructor
      · rintro ((rfl | h) | ⟨r, hrm, hpr, rfl⟩)
        · exact Or.inr ⟨x, Or.inl rfl, hp, rfl⟩
        · exact Or.inl h
        · exact Or.inr ⟨r, Or.inr hrm, hpr, rfl⟩
      · rintro (h | ⟨r, (rfl | hrm), hpr, rfl⟩)
        · exact Or.inl (Or.inr h)
        · exact Or.inl (Or.inl rfl)
        · exact Or.inr ⟨r, hrm, hpr, rfl⟩
    · rw [if_neg hp, ih]
      constructor
      · rintro (h | ⟨r, hrm, hpr, rfl⟩)
        · exact Or.inl h
        · exact Or.inr ⟨r, List.mem_cons_of_mem x hrm, hpr, rfl⟩
      · rintro (h | ⟨r, hrm, hpr, rfl⟩)
        · exact Or.inl h
        · rcases List.mem_cons.mp hrm with rfl | hrm2
          · exact absurd hpr hp
          · exact Or.inr ⟨r, hrm2, hpr, rfl⟩

/-- On a well-formed map the `_everywhere_` region matches exactly the
full road set. -/
theorem everywhere_roads (m : Map) (h : m.WF) (rid : RoadID) :
    (rid ∈ (Neighborhood.makeEverywhere m).findMatchingRoads m) ↔
      rid ∈ m.roads.map Road.id := by
  obtain ⟨_, _, _, hr⟩ := h
  unfold Neighborhood.findMatchingRoads
  rw [mem_roadsFold]
  constructor
  · rintro (h0 | ⟨r, hrm, _, rfl⟩)
    · exact absurd h0 (List.not_mem_nil rid)
    · exact List.mem_map.mpr ⟨r, hrm, rfl⟩
  · intro hm
    obtain ⟨r, hrm, hid⟩ := List.mem_map.mp hm
    subst hid
    exact Or.inr ⟨r, hrm, containsPt_everywhere m _ (hr r hrm).2, rfl⟩

/-- C6: for every well-formed map, the synthetic `_everywhere_`
neighborhood matches the map's full building set and its full road
set. -/
theorem everywhere_matches_all (m : Map) (h : m.WF) :
    (Neighborhood.makeEverywhere m).findMatchingBuildings m =
      m.buildings.map Building.id ∧
    ∀ rid, (rid ∈ (Neighborhood.makeEverywhere m).findMatchingRoads m) ↔
      rid ∈ m.roads.map Road.id :=
  ⟨everywhere_buildings m h, fun rid => everywhere_roads m h rid⟩

/-- Witness for C6 at the concrete map `map0`. -/
theorem everywhere_matches_all_witness :
    map0.WF ∧
    (Neighborhood.makeEverywhere map0).findMatchingBuildings map0 =
      map0.buildings.map Building.id ∧
    ((⟨0⟩ : RoadID) ∈ (Neighborhood.makeEverywhere map0).findMatchingRoads map0 ↔
       (⟨0⟩ : RoadID) ∈ map0.roads.map Road.id) := by
  have hwf : map0.WF := by
    refine ⟨by norm_num [map0], by norm_num [map0], ?_, ?_⟩
    · intro b hb
      simp only [map0, List.mem_cons, List.not_mem_nil, or_false] at hb
      rcases hb with rfl | rfl <;>
        norm_num [Pt2D.inBox, Pt2D.center, map0, decide_eq_true_eq]
    · intro r hr
      simp only [map0, List.mem_cons, List.not_mem_nil, or_false] at hr
      subst hr
      exact ⟨by simp, by norm_num [Pt2D.inBox, Road.firstPt, map0, decide_eq_true_eq]⟩
  exact ⟨hwf, (everywhere_matches_all map0 hwf).1,
         (everywhere_matches_all map0 hwf).2 ⟨0⟩⟩

/-- A successful uniform draw lands in the half-open interval. -/
theorem genRange_ok (r : Rng) (lo hi t : Nat) (r' : Rng)
    (h : r.genRange lo hi = .ok (t, r')) : lo ≤ t ∧ t < hi := by
  unfold Rng.genRange at h
  split at h
  · rename_i hlt
    injection h with h2
    have ht : lo + r.next.1 % (hi - lo) = t := congrArg Prod.fst h2
    subst ht
    refine ⟨Nat.le_add_right lo _, ?_⟩
    have hm : r.next.1 % (hi - lo) < hi - lo := Nat.mod_lt _ (by omega)
    omega
  · exact Except.noConfusion h

/-- The only panic a uniform draw can raise is the empty range. -/
theorem genRange_error (r : Rng) (lo hi : Nat) (e : InstErr)
    (h : r.genRange lo hi = .error e) : e = .badRange := by
  unfold Rng.genRange at h
  split at h
  · exact Except.noConfusion h
  · exact (Except.error.inj h).symm

/-- The only panic weighted sampling can raise is the empty range. -/
theorem sample_error (w : WeightedUsizeChoice) (r : Rng) (e : InstErr)
    (h : w.sample r = .error e) : e = .badRange := by
  unfold WeightedUsizeChoice.sample at h
  cases hg : r.genRange 0 w.weights.sum with
  | error e2 =>
    simp only [hg] at h
    obtain rfl : e = e2 := (Except.error.inj h).symm
    exact genRange_error _ _ _ _ hg
  | ok pr =>
    simp only [hg] at h
    exact Except.noConfusion h

/-- Parked-car seeding can only panic on an empty weight range. -/
theorem seedCars_error (dist : WeightedUsizeChoice) :
    ∀ (bs : List BuildingID) (sim : Sim) (e : InstErr),
      seedCarsForBuildings dist bs sim = .error e → e = .badRange := by
  intro bs
  induction bs with
  | nil =>
    intro sim e h
    exact Except.noConfusion h
  | cons b bs ih =>
    intro sim e h
    rw [seedCarsForBuildings] at h
    cases hs : dist.sample sim.rng with
    | error e2 =>
      simp only [hs] at h
      obtain rfl : e = e2 := (Except.error.inj h).symm
      exact sample_error _ _ _ hs
    | ok pr =>
      simp only [hs] at h
      exact ih _ _ h

/-- The driving-goal resolver panics only on an undefined neighborhood
or an empty matched-building list. -/
theorem pickDrivingGoal_error (od : OriginDestination) (m : Map)
    (bp : List (String × List BuildingID)) (r : Rng) (e : InstErr)
    (h : od.pickDrivingGoal m bp r = .error e) : e ≠ .notTickZero := by
  unfold OriginDestination.pickDrivingGoal at h
  cases od with
  | neighborhood n =>
    cases hl : hmLookup bp n with
    | none =>
      simp only [hl] at h
      obtain rfl : e = .undefinedNeighborhood n := (Except.error.inj h).symm
      exact fun hx => InstErr.noConfusion hx
    | some bldgs =>
      simp only [hl] at h
      rcases hc : r.choose bldgs with ⟨c, r2⟩
      simp only [hc] at h
      cases c with
      | none =>
        simp only at h
        obtain rfl : e = .emptyChoice := (Except.error.inj h).symm
        exact fun hx => InstErr.noConfusion hx
      | some b =>
        simp only at h
        exact Except.noConfusion h
  | border i =>
    cases hi : m.incomingDrivingLanes i with
    | nil =>
      simp only [hi] at h
      exact Except.noConfusion h
    | cons l0 ls =>
      simp only [hi] at h
      exact Except.noConfusion h

/-- The walking-goal resolver panics only on an undefined neighborhood
or an empty matched-building list. -/
theorem pickWalkingGoal_error (od : OriginDestination) (m : Map)
    (bp : List (String × List BuildingID)) (r : Rng) (e : InstErr)
    (h : od.pickWalkingGoal m bp r = .error e) : e ≠ .notTickZero := by
  unfold OriginDestination.pickWalkingGoal at h
  cases od with
  | neighborhood n =>
    cases hl : hmLookup bp n with
    | none =>
      simp only [hl] at h
      obtain rfl : e = .undefinedNeighborhood n := (Except.error.inj h).symm
      exact fun hx => InstErr.noConfusion hx
    | some bldgs =>
      simp only [hl] at h
      rcases hc : r.choose bldgs with ⟨c, r2⟩
      simp only [hc] at h
      cases c with
      | none =>
        simp only at h
        obtain rfl : e = .emptyChoice := (Except.error.inj h).symm
        exact fun hx => InstErr.noConfusion hx
      | some b =>
        simp only at h
        exact Except.noConfusion h
  | border i => exact Except.noConfusion h

/-- The spawn-over-time agent body never raises the tick-zero
precondition panic. -/
theorem spawnOneAgent_error_ne (s : SpawnOverTime) (m : Map)
    (bp : List (String × List BuildingID)) (sim : Sim) (res : List CarID)
    (e : InstErr) (h : spawnOneAgent s m bp sim res = .error e) :
    e ≠ .notTickZero := by
  unfold spawnOneAgent at h
  cases hg : sim.rng.genRange s.start_tick.tick s.stop_tick.tick with
  | error e2 =>
    simp only [hg] at h
    obtain rfl : e = e2 := (Except.error.inj h).symm
    rw [genRange_error _ _ _ _ hg]
    exact fun hx => InstErr.noConfusion hx
  | ok pr =>
    obtain ⟨t, r1⟩ := pr
    simp only [hg] at h
    cases hl : hmLookup bp s.start_from_neighborhood with
    | none =>
      simp only [hl] at h
      obtain rfl : e = .missingKey s.start_from_neighborhood :=
        (Except.error.inj h).symm
      exact fun hx => InstErr.noConfusion hx
    | some bldgs =>
      simp only [hl] at h
      rcases hc : r1.choose bldgs with ⟨c, r2⟩
      simp only [hc] at h
      cases c with
      | none =>
        simp only at h
        obtain rfl : e = .emptyChoice := (Except.error.inj h).symm
        exact fun hx => InstErr.noConfusion hx
      | some fromBldg =>
        simp only at h
        cases hf : List.find? (fun p : ParkedCar => !res.contains p.car)
            (Sim.parkedCarsByOwner { sim with rng := r2 } fromBldg) with
        | some parkedCar =>
          simp only [hf] at h
          cases hd : s.goal.pickDrivingGoal m bp r2 with
          | error e3 =>
            simp only [hd] at h
            obtain rfl : e = e3 := (Except.error.inj h).symm
            exact pickDrivingGoal_error _ _ _ _ _ hd
          | ok pr2 =>
            obtain ⟨g, r3⟩ := pr2
            simp only [hd] at h
            cases g with
            | some goal => exact Except.noConfusion h
            | none => exact Except.noConfusion h
        | none =>
          simp only [hf] at h
          cases hw : s.goal.pickWalkingGoal m bp r2 with
          | error e3 =>
            simp only [hw] at h
            obtain rfl : e = e3 := (Except.error.inj h).symm
            exact pickWalkingGoal_error _ _ _ _ _ hw
          | ok pr2 =>
            obtain ⟨g, r3⟩ := pr2
            simp only [hw] at h
            cases g with
            | some goal => exact Except.noConfusion h
            | none => exact Except.noConfusion h

/-- The agent loop never raises the tick-zero precondition panic. -/
theorem spawnAgents_error_ne (s : SpawnOverTime) (m : Map)
    (bp : List (String × List BuildingID)) :
    ∀ (n : Nat) (sim : Sim) (res : List CarID) (e : InstErr),
      spawnAgents s m bp n sim res = .error e → e ≠ .notTickZero := by
  intro n
  induction n with
  | zero =>
    intro sim res e h
    exact Except.noConfusion h
  | succ n ih =>
    intro sim res e h
    rw [spawnAgents] at h
    cases ha : spawnOneAgent s m bp sim res with
    | error e2 =>
      simp only [ha] at h
      obtain rfl : e = e2 := (Except.error.inj h).symm
      exact spawnOneAgent_error_ne _ _ _ _ _ _ ha
    | ok pr =>
      obtain ⟨sim', res'⟩ := pr
      simp only [ha] at h
      exact ih sim' res' e h

/-- The spawn-over-time phase never raises the tick-zero panic. -/
theorem spawnOverTimePhase_error_ne (m : Map)
    (nbhs : List (String × Neighborhood))
    (bp : List (String × List BuildingID)) :
    ∀ (records : List SpawnOverTime) (sim : Sim) (res : List CarID)
      (e : InstErr),
      spawnOverTimePhase m nbhs bp records sim res = .error e →
      e ≠ .notTickZero := by
  intro records
  induction records with
  | nil =>
    intro sim res e h
    exact Except.noConfusion h
  | cons s rest ih =>
    intro sim res e h
    rw [spawnOverTimePhase] at h
    by_cases hc : hmContains nbhs s.start_from_neighborhood
    · rw [if_pos hc] at h
      cases ha : spawnAgents s m bp s.num_agents sim res with
      | error e2 =>
        simp only [ha] at h
        obtain rfl : e = e2 := (Except.error.inj h).symm
        exact spawnAgents_error_ne _ _ _ _ _ _ _ ha
      | ok pr =>
        obtain ⟨sim', res'⟩ := pr
        simp only [ha] at h
        exact ih sim' res' e h
    · rw [if_neg hc] at h
      obtain rfl : e = .undefinedNeighborhood s.start_from_neighborhood :=
        (Except.error.inj h).symm
      exact fun hx => InstErr.noConfusion hx

/-- The border pedestrian loop never raises the tick-zero panic. -/
theorem borderPeds_error_ne (s : BorderSpawnOverTime) (m : Map)
    (bp : List (String × List BuildingID)) (start : SidewalkSpot) :
    ∀ (n : Nat) (sim : Sim) (e : InstErr),
      borderPeds s m bp start n sim = .error e → e ≠ .notTickZero := by
  intro n
  induction n with
  | zero =>
    intro sim e h
    exact Except.noConfusion h
  | succ n ih =>
    intro sim e h
    rw [borderPeds] at h
    cases hg : sim.rng.genRange s.start_tick.tick s.stop_tick.tick with
    | error e2 =>
      simp only [hg] at h
      obtain rfl : e = e2 := (Except.error.inj h).symm
      rw [genRange_error _ _ _ _ hg]
      exact fun hx => InstErr.noConfusion hx
    | ok pr =>
      obtain ⟨t, r1⟩ := pr
      simp only [hg] at h
      cases hw : s.goal.pickWalkingGoal m bp r1 with
      | error e3 =>
        simp only [hw] at h
        obtain rfl : e = e3 := (Except.error.inj h).symm
        exact pickWalkingGoal_error _ _ _ _ _ hw
      | ok pr2 =>
        obtain ⟨g, r2⟩ := pr2
        simp only [hw] at h
        cases g with
        | some goal => exact ih _ _ h
        | none => exact ih _ _ h

/-- The border car loop never raises the tick-zero panic. -/
theorem borderCars_error_ne (s : BorderSpawnOverTime) (m : Map)
    (bp : List (String × List BuildingID)) (lane : LaneID) :
    ∀ (n : Nat) (sim : Sim) (e : InstErr),
      borderCars s m bp lane n sim = .error e → e ≠ .notTickZero := by
  intro n
  induction n with
  | zero =>
    intro sim e h
    exact Except.noConfusion h
  | succ n ih =>
    intro sim e h
    rw [borderCars] at h
    cases hg : sim.rng.genRange s.start_tick.tick s.stop_tick.tick with
    | error e2 =>
      simp only [hg] at h
      obtain rfl : e = e2 := (Except.error.inj h).symm
      rw [genRange_error _ _ _ _ hg]
      exact fun hx => InstErr.noConfusion hx
    | ok pr =>
      obtain ⟨t, r1⟩ := pr
      simp only [hg] at h
      cases hd : s.goal.pickDrivingGoal m bp r1 with
      | error e3 =>
        simp only [hd] at h
        obtain rfl : e = e3 := (Except.error.inj h).symm
        exact pickDrivingGoal_error _ _ _ _ _ hd
      | ok pr2 =>
        obtain ⟨g, r2⟩ := pr2
        simp only [hd] at h
        cases g with
        | some goal => exact ih _ _ h
        | none => exact ih _ _ h

/-- The car half of a border record never raises the tick-zero panic. -/
theorem borderRecordCars_error_ne (s : BorderSpawnOverTime) (m : Map)
    (bp : List (String × List BuildingID)) (sim : Sim) (e : InstErr)
    (h : borderRecordCars s m bp sim = .error e) : e ≠ .notTickZero := by
  unfold borderRecordCars at h
  cases ho : m.outgoingDrivingLanes s.start_from_border with
  | nil =>
    simp only [ho] at h
    exact Except.noConfusion h
  | cons lane0 ls =>
    simp only [ho] at h
    exact borderCars_error_ne _ _ _ _ _ _ _ h

/-- A border record never raises the tick-zero panic. -/
theorem borderRecord_error_ne (s : BorderSpawnOverTime) (m : Map)
    (bp : List (String × List BuildingID)) (sim : Sim) (e : InstErr)
    (h : borderRecord s m bp sim = .error e) : e ≠ .notTickZero := by
  unfold borderRecord at h
  cases hs : m.sidewalkStartAtBorder s.start_from_border with
  | none =>
    simp only [hs] at h
    exact borderRecordCars_error_ne _ _ _ _ _ h
  | some start =>
    simp only [hs] at h
    cases hp : borderPeds s m bp start s.num_peds sim with
    | error e2 =>
      simp only [hp] at h
      obtain rfl : e = e2 := (Except.error.inj h).symm
      exact borderPeds_error_ne _ _ _ _ _ _ _ hp
    | ok sim2 =>
      simp only [hp] at h
      exact borderRecordCars_error_ne _ _ _ _ _ h

/-- The border phase never raises the tick-zero panic. -/
theorem borderPhase_error_ne (m : Map)
    (bp : List (String × List BuildingID)) :
    ∀ (records : List BorderSpawnOverTime) (sim : Sim) (e : InstErr),
      borderPhase m bp records sim = .error e → e ≠ .notTickZero := by
  intro records
  induction records with
  | nil =>
    intro sim e h
    exact Except.noConfusion h
  | cons s rest ih =>
    intro sim e h
    rw [borderPhase] at h
    cases hb : borderRecord s m bp sim with
    | error e2 =>
      simp only [hb] at h
      obtain rfl : e = e2 := (Except.error.inj h).symm
      exact borderRecord_error_ne _ _ _ _ _ hb
    | ok sim' =>
      simp only [hb] at h
      exact ih sim' e h

/-- The parked-car seeding phase never raises the tick-zero panic. -/
theorem seedPhase_error_ne (nbhs : List (String × Neighborhood))
    (bp : List (String × List BuildingID))
    (rp : List (String × List RoadID)) :
    ∀ (records : List SeedParkedCars) (sim : Sim) (e : InstErr),
      seedPhase nbhs bp rp records sim = .error e → e ≠ .notTickZero := by
  intro records
  induction records with
  | nil =>
    intro sim e h
    exact Except.noConfusion h
  | cons s rest ih =>
    intro sim e h
    rw [seedPhase] at h
    by_cases hc : hmContains nbhs s.neighborhood
    · rw [if_pos hc] at h
      cases hl : hmLookup bp s.neighborhood with
      | none =>
        simp only [hl] at h
        obtain rfl : e = .missingKey s.neighborhood := (Except.error.inj h).symm
        exact fun hx => InstErr.noConfusion hx
      | some bldgs =>
        simp only [hl] at h
        cases hr : hmLookup rp s.neighborhood with
        | none =>
          simp only [hr] at h
          obtain rfl : e = .missingKey s.neighborhood := (Except.error.inj h).symm
          exact fun hx => InstErr.noConfusion hx
        | some roads =>
          simp only [hr] at h
          cases hseed : sim.seedParkedCars bldgs roads s.cars_per_building with
          | error e2 =>
            simp only [hseed] at h
            obtain rfl : e = e2 := (Except.error.inj h).symm
            rw [seedCars_error _ _ _ _ hseed]
            exact fun hx => InstErr.noConfusion hx
          | ok sim' =>
            simp only [hseed] at h
            exact ih sim' e h
    · rw [if_neg hc] at h
      obtain rfl : e = .undefinedNeighborhood s.neighborhood :=
        (Except.error.inj h).symm
      exact fun hx => InstErr.noConfusion hx

/-- The instantiation body, past the tick-zero assertion, never raises
the tick-zero panic itself. -/
theorem instantiateBody_error_ne (sc : Scenario)
    (persisted order : List (String × Neighborhood)) (sim : Sim) (m : Map)
    (e : InstErr) (h : instantiateBody sc persisted order sim m = .error e) :
    e ≠ .notTickZero := by
  unfold instantiateBody at h
  cases hs : seedPhase
      (hmInsert (hmFromList persisted) "_everywhere_" (Neighborhood.makeEverywhere m))
      (order.map fun kv => (kv.1, kv.2.findMatchingBuildings m))
      (order.map fun kv => (kv.1, kv.2.findMatchingRoads m))
      sc.seed_parked_cars sim with
  | error e2 =>
    simp only [hs] at h
    obtain rfl : e = e2 := (Except.error.inj h).symm
    exact seedPhase_error_ne _ _ _ _ _ _ hs
  | ok sim1 =>
    simp only [hs] at h
    cases hp : spawnOverTimePhase m
        (hmInsert (hmFromList persisted) "_everywhere_" (Neighborhood.makeEverywhere m))
        (order.map fun kv => (kv.1, kv.2.findMatchingBuildings m))
        sc.spawn_over_time sim1 [] with
    | error e2 =>
      simp only [hp] at h
      obtain rfl : e = e2 := (Except.error.inj h).symm
      exact spawnOverTimePhase_error_ne _ _ _ _ _ _ _ hp
    | ok pr =>
      obtain ⟨sim2, res2⟩ := pr
      simp only [hp] at h
      exact borderPhase_error_ne _ _ _ _ _ h

/-- C7: `Scenario::instantiate` fails fatally on the tick-zero
precondition, emitting no trips, whenever the simulation clock is not
tick zero; when the clock is tick zero the precondition check passes —
execution proceeds to the instantiation body, and any fatal failure
from there on is never the precondition failure. -/
theorem instantiate_tick_zero (sc : Scenario)
    (persisted order : List (String × Neighborhood)) (sim : Sim) (m : Map) :
    (sim.time ≠ Tick.zero →
       sc.instantiate persisted order sim m = .error .notTickZero ∧
       simResultTrips (sc.instantiate persisted order sim m) = none) ∧
    (sim.time = Tick.zero →
       sc.instantiate persisted order sim m =
         instantiateBody sc persisted order sim m ∧
       ∀ e, sc.instantiate persisted order sim m = .error e →
         e ≠ .notTickZero) := by
  constructor
  · intro hne
    have hrun : sc.instantiate persisted order sim m = .error .notTickZero := by
      unfold Scenario.instantiate
      rw [if_pos hne]
    exact ⟨hrun, by rw [hrun]; rfl⟩
  · intro hz
    have hrun : sc.instantiate persisted order sim m =
        instantiateBody sc persisted order sim m := by
      unfold Scenario.instantiate
      rw [if_neg (by simp [hz])]
    refine ⟨hrun, ?_⟩
    intro e he
    rw [hrun] at he
    exact instantiateBody_error_ne _ _ _ _ _ _ he

/-- Witness for C7: a clock at tick one fails the precondition; a clock
at tick zero proceeds to the body. -/
theorem instantiate_tick_zero_witness :
    (sim1.time ≠ Tick.zero ∧
       scEmpty.instantiate [] [] sim1 map0 = .error .notTickZero) ∧
    (sim0.time = Tick.zero ∧
       scEmpty.instantiate [] [] sim0 map0 =
         instantiateBody scEmpty [] [] sim0 map0) :=
  ⟨⟨by decide, ((instantiate_tick_zero scEmpty [] [] sim1 map0).1 (by decide)).1⟩,
   ⟨by decide, ((instantiate_tick_zero scEmpty [] [] sim0 map0).2 (by decide)).1⟩⟩

/-- Parked-car projection distributes over appended trip logs. -/
theorem parkedCarsOf_append (a b : List Trip) :
    parkedCarsOf (a ++ b) = parkedCarsOf a ++ parkedCarsOf b := by
  unfold parkedCarsOf
  exact List.filterMap_append a b _

/-- One spawn-over-time agent extends the trip log only by trips whose
spawn tick lies in the record's interval, never emits a parked-car trip
whose car is already reserved, and only grows the reservation set. -/
theorem spawnOneAgent_extend (s : SpawnOverTime) (m : Map)
    (bp : List (String × List BuildingID)) (sim : Sim) (res : List CarID)
    (sim' : Sim) (res' : List CarID)
    (h : spawnOneAgent s m bp sim res = .ok (sim', res')) :
    sim'.parking = sim.parking ∧
    ∃ Δ, sim'.trips = sim.trips ++ Δ ∧
      (∀ t ∈ Δ, s.start_tick.tick ≤ t.spawnTime.tick ∧
         t.spawnTime.tick < s.stop_tick.tick) ∧
      ((parkedCarsOf Δ = [] ∧ res' = res) ∨
       (∃ c, parkedCarsOf Δ = [c] ∧ res' = c :: res ∧ c ∉ res)) := by
  unfold spawnOneAgent at h
  cases hg : sim.rng.genRange s.start_tick.tick s.stop_tick.tick with
  | error e2 =>
    simp only [hg] at h
    exact Except.noConfusion h
  | ok pr =>
    obtain ⟨t, r1⟩ := pr
    obtain ⟨hlo, hhi⟩ := genRange_ok _ _ _ _ _ hg
    simp only [hg] at h
    cases hl : hmLookup bp s.start_from_neighborhood with
    | none =>
      simp only [hl] at h
      exact Except.noConfusion h
    | some bldgs =>
      simp only [hl] at h
      rcases hc : r1.choose bldgs with ⟨c, r2⟩
      simp only [hc] at h
      cases c with
      | none =>
        simp only at h
        exact Except.noConfusion h
      | some fromBldg =>
        simp only at h
        cases hf : List.find? (fun p : ParkedCar => !res.contains p.car)
            (Sim.parkedCarsByOwner { sim with rng := r2 } fromBldg) with
        | some parkedCar =>
          simp only [hf] at h
          have hfree : parkedCar.car ∉ res := by
            have hp := List.find?_some hf
            simpa using hp
          cases hd : s.goal.pickDrivingGoal m bp r2 with
          | error e3 =>
            simp only [hd] at h
            exact Except.noConfusion h
          | ok pr2 =>
            obtain ⟨g, r3⟩ := pr2
            simp only [hd] at h
            cases g with
            | some goal =>
              injection h with h2
              injection h2 with hsim hres
              subst hsim
              subst hres
              refine ⟨rfl, [.usingParkedCar ⟨t⟩ parkedCar.car fromBldg goal],
                rfl, ?_, Or.inr ⟨parkedCar.car, rfl, rfl, hfree⟩⟩
              intro tr htr
              rw [List.mem_singleton] at htr
              subst htr
              exact ⟨hlo, hhi⟩
            | none =>
              injection h with h2
              injection h2 with hsim hres
              subst hsim
              subst hres
              exact ⟨rfl, [], by simp, by simp, Or.inl ⟨rfl, rfl⟩⟩
        | none =>
          simp only [hf] at h
          cases hw : s.goal.pickWalkingGoal m bp r2 with
          | error e3 =>
            simp only [hw] at h
            exact Except.noConfusion h
          | ok pr2 =>
            obtain ⟨g, r3⟩ := pr2
            simp only [hw] at h
            cases g with
            | some goal =>
              injection h with h2
              injection h2 with hsim hres
              subst hsim
              subst hres
              refine ⟨rfl, [.justWalking ⟨t⟩ (.building fromBldg) goal],
                rfl, ?_, Or.inl ⟨rfl, rfl⟩⟩
              intro tr htr
              rw [List.mem_singleton] at htr
              subst htr
              exact ⟨hlo, hhi⟩
            | none =>
              injection h with h2
              injection h2 with hsim hres
              subst hsim
              subst hres
              exact ⟨rfl, [], by simp, by simp, Or.inl ⟨rfl, rfl⟩⟩

/-- The agent loop extends the trip log only by in-interval trips. -/
theorem spawnAgents_extend (s : SpawnOverTime) (m : Map)
    (bp : List (String × List BuildingID)) :
    ∀ (n : Nat) (sim : Sim) (res : List CarID) (sim' : Sim) (res' : List CarID),
      spawnAgents s m bp n sim res = .ok (sim', res') →
      sim'.parking = sim.parking ∧
      ∃ Δ, sim'.trips = sim.trips ++ Δ ∧
        ∀ t ∈ Δ, s.start_tick.tick ≤ t.spawnTime.tick ∧
          t.spawnTime.tick < s.stop_tick.tick := by
  intro n
  induction n with
  | zero =>
    intro sim res sim' res' h
    rw [spawnAgents] at h
    injection h with h2
    injection h2 with hsim hres
    subst hsim
    exact ⟨rfl, [], by simp, by simp⟩
  | succ n ih =>
    intro sim res sim' res' h
    rw [spawnAgents] at h
    cases ha : spawnOneAgent s m bp sim res with
    | error e2 =>
      simp only [ha] at h
      exact Except.noConfusion h
    | ok pr =>
      obtain ⟨sim1, res1⟩ := pr
      simp only [ha] at h
      obtain ⟨hpark1, Δ1, htr1, hb1, _⟩ := spawnOneAgent_extend _ _ _ _ _ _ _ ha
      obtain ⟨hpark2, Δ2, htr2, hb2⟩ := ih sim1 res1 sim' res' h
      refine ⟨hpark2.trans hpark1, Δ1 ++ Δ2, ?_, ?_⟩
      · rw [htr2, htr1, List.append_assoc]
      · intro t ht
        rcases List.mem_append.mp ht with h1 | h2
        · exact hb1 t h1
        · exact hb2 t h2

/-- One border pedestrian loop extends the trip log only by in-interval
walk trips (no parked-car trips). -/
theorem borderPeds_extend (s : BorderSpawnOverTime) (m : Map)
    (bp : List (String × List BuildingID)) (start : SidewalkSpot) :
    ∀ (n : Nat) (sim : Sim) (sim' : Sim),
      borderPeds s m bp start n sim = .ok sim' →
      sim'.parking = sim.parking ∧
      ∃ Δ, sim'.trips = sim.trips ++ Δ ∧
        (∀ t ∈ Δ, s.start_tick.tick ≤ t.spawnTime.tick ∧
           t.spawnTime.tick < s.stop_tick.tick) ∧
        parkedCarsOf Δ = [] := by
  intro n
  induction n with
  | zero =>
    intro sim sim' h
    rw [borderPeds] at h
    injection h with h2
    subst h2
    exact ⟨rfl, [], by simp, by simp, rfl⟩
  | succ n ih =>
    intro sim sim' h
    rw [borderPeds] at h
    cases hg : sim.rng.genRange s.start_tick.tick s.stop_tick.tick with
    | error e2 =>
      simp only [hg] at h
      exact Except.noConfusion h
    | ok pr =>
      obtain ⟨t, r1⟩ := pr
      obtain ⟨hlo, hhi⟩ := genRange_ok _ _ _ _ _ hg
      simp only [hg] at h
      cases hw : s.goal.pickWalkingGoal m bp r1 with
      | error e3 =>
        simp only [hw] at h
        exact Except.noConfusion h
      | ok pr2 =>
        obtain ⟨g, r2⟩ := pr2
        simp only [hw] at h
        cases g with
        | some goal =>
          obtain ⟨hpark, Δ, htr, hb, hpc⟩ := ih _ _ h
          refine ⟨hpark, .justWalking ⟨t⟩ start goal :: Δ, ?_, ?_, ?_⟩
          · rw [htr]
            simp
          · intro tr htr2
            rcases List.mem_cons.mp htr2 with rfl | h2
            · exact ⟨hlo, hhi⟩
            · exact hb tr h2
          · simpa [parkedCarsOf] using hpc
        | none =>
          obtain ⟨hpark, Δ, htr, hb, hpc⟩ := ih _ _ h
          exact ⟨hpark, Δ, htr, hb, hpc⟩

/-- One border car loop extends the trip log only by in-interval
border drive trips (no parked-car trips). -/
theorem borderCars_extend (s : BorderSpawnOverTime) (m : Map)
    (bp : List (String × List BuildingID)) (lane : LaneID) :
    ∀ (n : Nat) (sim : Sim) (sim' : Sim),
      borderCars s m bp lane n sim = .ok sim' →
      sim'.parking = sim.parking ∧
      ∃ Δ, sim'.trips = sim.trips ++ Δ ∧
        (∀ t ∈ Δ, s.start_tick.tick ≤ t.spawnTime.tick ∧
           t.spawnTime.tick < s.stop_tick.tick) ∧
        parkedCarsOf Δ = [] := by
  intro n
  induction n with
  | zero =>
    intro sim sim' h
    rw [borderCars] at h
    injection h with h2
    subst h2
    exact ⟨rfl, [], by simp, by simp, rfl⟩
  | succ n ih =>
    intro sim sim' h
    rw [borderCars] at h
    cases hg : sim.rng.genRange s.start_tick.tick s.stop_tick.tick with
    | error e2 =>
      simp only [hg] at h
      exact Except.noConfusion h
    | ok pr =>
      obtain ⟨t, r1⟩ := pr
      obtain ⟨hlo, hhi⟩ := genRange_ok _ _ _ _ _ hg
      simp only [hg] at h
      cases hd : s.goal.pickDrivingGoal m bp r1 with
      | error e3 =>
        simp only [hd] at h
        exact Except.noConfusion h
      | ok pr2 =>
        obtain ⟨g, r2⟩ := pr2
        simp only [hd] at h
        cases g with
        | some goal =>
          obtain ⟨hpark, Δ, htr, hb, hpc⟩ := ih _ _ h
          refine ⟨hpark, .carAtBorder ⟨t⟩ lane goal :: Δ, ?_, ?_, ?_⟩
          · rw [htr]
            simp
          · intro tr htr2
            rcases List.mem_cons.mp htr2 with rfl | h2
            · exact ⟨hlo, hhi⟩
            · exact hb tr h2
          · simpa [parkedCarsOf] using hpc
        | none =>
          obtain ⟨hpark, Δ, htr, hb, hpc⟩ := ih _ _ h
          exact ⟨hpark, Δ, htr, hb, hpc⟩

/-- The car half of a border record extends the trip log only by
in-interval trips, none of them parked-car trips. -/
theorem borderRecordCars_extend (s : BorderSpawnOverTime) (m : Map)
    (bp : List (String × List BuildingID)) (sim : Sim) (sim' : Sim)
    (h : borderRecordCars s m bp sim = .ok sim') :
    sim'.parking = sim.parking ∧
    ∃ Δ, sim'.trips = sim.trips ++ Δ ∧
      (∀ t ∈ Δ, s.start_tick.tick ≤ t.spawnTime.tick ∧
         t.spawnTime.tick < s.stop_tick.tick) ∧
      parkedCarsOf Δ = [] := by
  unfold borderRecordCars at h
  cases ho : m.outgoingDrivingLanes s.start_from_border with
  | nil =>
    simp only [ho] at h
    injection h with h2
    subst h2
    exact ⟨rfl, [], by simp, by simp, rfl⟩
  | cons lane0 ls =>
    simp only [ho] at h
    exact borderCars_extend _ _ _ _ _ _ _ h

/-- A whole border record extends the trip log only by in-interval
trips, none of them parked-car trips. -/
theorem borderRecord_extend (s : BorderSpawnOverTime) (m : Map)
    (bp : List (String × List BuildingID)) (sim : Sim) (sim' : Sim)
    (h : borderRecord s m bp sim = .ok sim') :
    sim'.parking = sim.parking ∧
    ∃ Δ, sim'.trips = sim.trips ++ Δ ∧
      (∀ t ∈ Δ, s.start_tick.tick ≤ t.spawnTime.tick ∧
         t.spawnTime.tick < s.stop_tick.tick) ∧
      parkedCarsOf Δ = [] := by
  unfold borderRecord at h
  cases hs : m.sidewalkStartAtBorder s.start_from_border with
  | none =>
    simp only [hs] at h
    exact borderRecordCars_extend _ _ _ _ _ h
  | some start =>
    simp only [hs] at h
    cases hp : borderPeds s m bp start s.num_peds sim with
    | error e2 =>
      simp only [hp] at h
      exact Except.noConfusion h
    | ok sim2 =>
      simp only [hp] at h
      obtain ⟨hpark1, Δ1, htr1, hb1, hpc1⟩ := borderPeds_extend _ _ _ _ _ _ _ hp
      obtain ⟨hpark2, Δ2, htr2, hb2, hpc2⟩ := borderRecordCars_extend _ _ _ _ _ h
      refine ⟨hpark2.trans hpark1, Δ1 ++ Δ2, ?_, ?_, ?_⟩
      · rw [htr2, htr1, List.append_assoc]
      · intro t ht
        rcases List.mem_append.mp ht with h1 | h2
        · exact hb1 t h1
        · exact hb2 t h2
      · rw [parkedCarsOf_append, hpc1, hpc2]
        rfl

/-- C4: every trip emitted while expanding a `SpawnOverTime` record or
either sub-population of a `BorderSpawnOverTime` record has its spawn
tick in the half-open interval `[start_tick, stop_tick)` of the record
that generated it. -/
theorem spawn_ticks_in_range :
    (∀ (s : SpawnOverTime) (m : Map) (bp : List (String × List BuildingID))
       (n : Nat) (sim : Sim) (res : List CarID) (sim' : Sim)
       (res' : List CarID),
       spawnAgents s m bp n sim res = .ok (sim', res') →
       ∀ t ∈ sim'.trips.drop sim.trips.length,
         s.start_tick.tick ≤ t.spawnTime.tick ∧
         t.spawnTime.tick < s.stop_tick.tick) ∧
    (∀ (s : BorderSpawnOverTime) (m : Map)
       (bp : List (String × List BuildingID)) (sim : Sim) (sim' : Sim),
       borderRecord s m bp sim = .ok sim' →
       ∀ t ∈ sim'.trips.drop sim.trips.length,
         s.start_tick.tick ≤ t.spawnTime.tick ∧
         t.spawnTime.tick < s.stop_tick.tick) := by
  constructor
  · intro s m bp n sim res sim' res' h t ht
    obtain ⟨_, Δ, htr, hb⟩ := spawnAgents_extend s m bp n sim res sim' res' h
    rw [htr, List.drop_left] at ht
    exact hb t ht
  · intro s m bp sim sim' h t ht
    obtain ⟨_, Δ, htr, hb, _⟩ := borderRecord_extend s m bp sim sim' h
    rw [htr, List.drop_left] at ht
    exact hb t ht

/-- Witness for C4: a concrete spawn-over-time agent and a concrete
border record, each emitting trips at in-interval ticks. -/
theorem spawn_ticks_in_range_witness :
    (sC4.start_tick.tick ≤
       (Trip.justWalking ⟨3⟩ (.building ⟨0⟩) (.building ⟨0⟩)).spawnTime.tick ∧
     (Trip.justWalking ⟨3⟩ (.building ⟨0⟩) (.building ⟨0⟩)).spawnTime.tick <
       sC4.stop_tick.tick) ∧
    (sB.start_tick.tick ≤
       (Trip.carAtBorder ⟨2⟩ ⟨3⟩ (.parkNear ⟨0⟩)).spawnTime.tick ∧
     (Trip.carAtBorder ⟨2⟩ ⟨3⟩ (.parkNear ⟨0⟩)).spawnTime.tick <
       sB.stop_tick.tick) := by
  constructor
  · have h : spawnAgents sC4 mapC3 bp1 1 sim0 [] = .ok outC4 := rfl
    exact spawn_ticks_in_range.1 sC4 mapC3 bp1 1 sim0 [] outC4.1 outC4.2 h
      (Trip.justWalking ⟨3⟩ (.building ⟨0⟩) (.building ⟨0⟩)) (by decide)
  · have h : borderRecord sB mapB bp1 sim0 = .ok outB := rfl
    exact spawn_ticks_in_range.2 sB mapB bp1 sim0 outB h
      (Trip.carAtBorder ⟨2⟩ ⟨3⟩ (.parkNear ⟨0⟩)) (by decide)

/-- Seeding parked cars never touches the trip log. -/
theorem seedCars_trips (dist : WeightedUsizeChoice) :
    ∀ (bs : List BuildingID) (sim : Sim) (sim' : Sim),
      seedCarsForBuildings dist bs sim = .ok sim' → sim'.trips = sim.trips := by
  intro bs
  induction bs with
  | nil =>
    intro sim sim' h
    injection h with h2
    subst h2
    rfl
  | cons b bs ih =>
    intro sim sim' h
    rw [seedCarsForBuildings] at h
    cases hs : dist.sample sim.rng with
    | error e2 =>
      simp only [hs] at h
      exact Except.noConfusion h
    | ok pr =>
      obtain ⟨count, r'⟩ := pr
      simp only [hs] at h
      have h2 := ih _ _ h
      rw [h2]

/-- The seeding phase never touches the trip log. -/
theorem seedPhase_trips (nbhs : List (String × Neighborhood))
    (bp : List (String × List BuildingID))
    (rp : List (String × List RoadID)) :
    ∀ (records : List SeedParkedCars) (sim : Sim) (sim' : Sim),
      seedPhase nbhs bp rp records sim = .ok sim' → sim'.trips = sim.trips := by
  intro records
  induction records with
  | nil =>
    intro sim sim' h
    injection h with h2
    subst h2
    rfl
  | cons s rest ih =>
    intro sim sim' h
    rw [seedPhase] at h
    by_cases hc : hmContains nbhs s.neighborhood
    · rw [if_pos hc] at h
      cases hl : hmLookup bp s.neighborhood with
      | none =>
        simp only [hl] at h
        exact Except.noConfusion h
      | some bldgs =>
        simp only [hl] at h
        cases hr : hmLookup rp s.neighborhood with
        | none =>
          simp only [hr] at h
          exact Except.noConfusion h
        | some roads =>
          simp only [hr] at h
          cases hseed : sim.seedParkedCars bldgs roads s.cars_per_building with
          | error e2 =>
            simp only [hseed] at h
            exact Except.noConfusion h
          | ok sim1 =>
            simp only [hseed] at h
            rw [ih sim1 sim' h]
            exact seedCars_trips _ _ _ _ hseed
    · rw [if_neg hc] at h
      exact Except.noConfusion h

/-- One agent preserves the reservation invariant: the parked cars in
the trip log are pairwise distinct and all reserved. -/
theorem spawnOneAgent_resInv (s : SpawnOverTime) (m : Map)
    (bp : List (String × List BuildingID)) (sim : Sim) (res : List CarID)
    (sim' : Sim) (res' : List CarID)
    (h : spawnOneAgent s m bp sim res = .ok (sim', res'))
    (hinv : (parkedCarsOf sim.trips).Nodup ∧
      ∀ c ∈ parkedCarsOf sim.trips, c ∈ res) :
    (parkedCarsOf sim'.trips).Nodup ∧
      ∀ c ∈ parkedCarsOf sim'.trips, c ∈ res' := by
  obtain ⟨_, Δ, htr, _, hres⟩ := spawnOneAgent_extend s m bp sim res sim' res' h
  rcases hres with ⟨hpc, rfl⟩ | ⟨c, hpc, rfl, hcnotin⟩
  · rw [htr, parkedCarsOf_append, hpc, List.append_nil]
    exact hinv
  · rw [htr, parkedCarsOf_append, hpc]
    constructor
    · rw [List.nodup_append]
      refine ⟨hinv.1, List.nodup_singleton c, ?_⟩
      intro a ha hb2
      rw [List.mem_singleton] at hb2
      subst hb2
      exact hcnotin (hinv.2 a ha)
    · intro d hd
      rcases List.mem_append.mp hd with hold | hnew
      · exact List.mem_cons_of_mem c (hinv.2 d hold)
      · rw [List.mem_singleton] at hnew
        subst hnew
        exact List.mem_cons_self d res

/-- The agent loop preserves the reservation invariant. -/
theorem spawnAgents_resInv (s : SpawnOverTime) (m : Map)
    (bp : List (String × List BuildingID)) :
    ∀ (n : Nat) (sim : Sim) (res : List CarID) (sim' : Sim) (res' : List CarID),
      spawnAgents s m bp n sim res = .ok (sim', res') →
      ((parkedCarsOf sim.trips).Nodup ∧
        ∀ c ∈ parkedCarsOf sim.trips, c ∈ res) →
      (parkedCarsOf sim'.trips).Nodup ∧
        ∀ c ∈ parkedCarsOf sim'.trips, c ∈ res' := by
  intro n
  induction n with
  | zero =>
    intro sim res sim' res' h hinv
    rw [spawnAgents] at h
    injection h with h2
    injection h2 with hsim hres
    subst hsim
    subst hres
    exact hinv
  | succ n ih =>
    intro sim res sim' res' h hinv
    rw [spawnAgents] at h
    cases ha : spawnOneAgent s m bp sim res with
    | error e2 =>
      simp only [ha] at h
      exact Except.noConfusion h
    | ok pr =>
      obtain ⟨sim1, res1⟩ := pr
      simp only [ha] at h
      exact ih sim1 res1 sim' res' h
        (spawnOneAgent_resInv s m bp sim res sim1 res1 ha hinv)

/-- The spawn-over-time phase preserves the reservation invariant. -/
theorem spawnOverTimePhase_resInv (m : Map)
    (nbhs : List (String × Neighborhood))
    (bp : List (String × List BuildingID)) :
    ∀ (records : List SpawnOverTime) (sim : Sim) (res : List CarID)
      (sim' : Sim) (res' : List CarID),
      spawnOverTimePhase m nbhs bp records sim res = .ok (sim', res') →
      ((parkedCarsOf sim.trips).Nodup ∧
        ∀ c ∈ parkedCarsOf sim.trips, c ∈ res) →
      (parkedCarsOf sim'.trips).Nodup ∧
        ∀ c ∈ parkedCarsOf sim'.trips, c ∈ res' := by
  intro records
  induction records with
  | nil =>
    intro sim res sim' res' h hinv
    rw [spawnOverTimePhase] at h
    injection h with h2
    injection h2 with hsim hres
    subst hsim
    subst hres
    exact hinv
  | cons s rest ih =>
    intro sim res sim' res' h hinv
    rw [spawnOverTimePhase] at h
    by_cases hc : hmContains nbhs s.start_from_neighborhood
    · rw [if_pos hc] at h
      cases ha : spawnAgents s m bp s.num_agents sim res with
      | error e2 =>
        simp only [ha] at h
        exact Except.noConfusion h
      | ok pr =>
        obtain ⟨sim1, res1⟩ := pr
        simp only [ha] at h
        exact ih sim1 res1 sim' res' h
          (spawnAgents_resInv s m bp s.num_agents sim res sim1 res1 ha hinv)
    · rw [if_neg hc] at h
      exact Except.noConfusion h

/-- The border phase leaves the parked-car projection of the trip log
unchanged. -/
theorem borderPhase_parkedCars (m : Map)
    (bp : List (String × List BuildingID)) :
    ∀ (records : List BorderSpawnOverTime) (sim : Sim) (sim' : Sim),
      borderPhase m bp records sim = .ok sim' →
      parkedCarsOf sim'.trips = parkedCarsOf sim.trips := by
  intro records
  induction records with
  | nil =>
    intro sim sim' h
    injection h with h2
    subst h2
    rfl
  | cons s rest ih =>
    intro sim sim' h
    rw [borderPhase] at h
    cases hb : borderRecord s m bp sim with
    | error e2 =>
      simp only [hb] at h
      exact Except.noConfusion h
    | ok sim1 =>
      simp only [hb] at h
      obtain ⟨_, Δ, htr, _, hpc⟩ := borderRecord_extend s m bp sim sim1 hb
      rw [ih sim1 sim' h, htr, parkedCarsOf_append, hpc, List.append_nil]

/-- C3: within one `Scenario::instantiate` call started with an empty
trip log, the parked-car identifiers passed to
`start_trip_using_parked_car` are pairwise distinct: each drive trip's
car is outside the reservation set when selected and enters it before
the trip is emitted, so no car is claimed twice. -/
theorem instantiate_cars_distinct (sc : Scenario)
    (persisted order : List (String × Neighborhood)) (sim : Sim) (m : Map)
    (tr : List Trip) (h0 : sim.trips = [])
    (h : simResultTrips (sc.instantiate persisted order sim m) = some tr) :
    (parkedCarsOf tr).Nodup := by
  unfold Scenario.instantiate at h
  by_cases ht : sim.time ≠ Tick.zero
  · rw [if_pos ht] at h
    exact Option.noConfusion h
  · rw [if_neg ht] at h
    unfold instantiateBody at h
    cases hs : seedPhase
        (hmInsert (hmFromList persisted) "_everywhere_"
          (Neighborhood.makeEverywhere m))
        (order.map fun kv => (kv.1, kv.2.findMatchingBuildings m))
        (order.map fun kv => (kv.1, kv.2.findMatchingRoads m))
        sc.seed_parked_cars sim with
    | error e2 =>
      simp only [hs] at h
      exact Option.noConfusion h
    | ok sim1 =>
      simp only [hs] at h
      cases hp : spawnOverTimePhase m
          (hmInsert (hmFromList persisted) "_everywhere_"
            (Neighborhood.makeEverywhere m))
          (order.map fun kv => (kv.1, kv.2.findMatchingBuildings m))
          sc.spawn_over_time sim1 [] with
      | error e2 =>
        simp only [hp] at h
        exact Option.noConfusion h
      | ok pr =>
        obtain ⟨sim2, res2⟩ := pr
        simp only [hp] at h
        cases hb : borderPhase m
            (order.map fun kv => (kv.1, kv.2.findMatchingBuildings m))
            sc.border_spawn_over_time sim2 with
        | error e2 =>
          simp only [hb] at h
          exact Option.noConfusion h
        | ok sim3 =>
          simp only [hb, simResultTrips] at h
          have htr : tr = sim3.trips := (Option.some.inj h).symm
          subst htr
          have h1 : sim1.trips = [] := by
            rw [seedPhase_trips _ _ _ _ _ _ hs, h0]
          have hinv0 : (parkedCarsOf sim1.trips).Nodup ∧
              ∀ c ∈ parkedCarsOf sim1.trips, c ∈ ([] : List CarID) := by
            rw [h1]
            exact ⟨List.nodup_nil, by simp [parkedCarsOf]⟩
          have hinv2 := spawnOverTimePhase_resInv m _ _ _ sim1 [] sim2 res2 hp hinv0
          rw [borderPhase_parkedCars m _ _ sim2 sim3 hb]
          exact hinv2.1

/-- Witness for C3: the two-agent scenario `scC3` emits one drive trip
and one walk trip; the parked-car list of the result is duplicate-free. -/
theorem instantiate_cars_distinct_witness :
    sim0.trips = [] ∧ (parkedCarsOf tripsC3).Nodup := by
  constructor
  · rfl
  · have hB : (Neighborhood.makeEverywhere mapC3).findMatchingBuildings mapC3 =
        [⟨0⟩] := by
      have hwf : mapC3.WF := by
        refine ⟨by norm_num [mapC3], by norm_num [mapC3], ?_, ?_⟩
        · intro b hb
          simp only [mapC3, List.mem_cons, List.not_mem_nil, or_false] at hb
          subst hb
          norm_num [Pt2D.inBox, Pt2D.center, mapC3, decide_eq_true_eq]
        · intro r hr
          simp only [mapC3, List.not_mem_nil] at hr
      exact everywhere_buildings mapC3 hwf
    have hrun : simResultTrips (scC3.instantiate [] orderC3 sim0 mapC3) =
        some tripsC3 := by
      unfold Scenario.instantiate
      rw [if_neg (by simp [sim0, Tick.zero])]
      unfold instantiateBody
      simp only [orderC3, List.map_cons, List.map_nil, hB]
      rfl
    exact instantiate_cars_distinct scC3 [] orderC3 sim0 mapC3 tripsC3 rfl hrun

/-- C1 counterexample: at the concrete input `s1`/`map0`/`simC1`, the
agent's origin building `0` owns a parked car and nothing is reserved,
the driving goal fails to resolve (the goal border has no incoming
driving lane), and a walking goal would resolve (the border has a
sidewalk) — yet the agent emits no trip at all: the code drops the
agent instead of falling back to walking, refuting the claim as
stated. -/
theorem walk_fallback_counterexample :
    simC1.parkedCarsByOwner ⟨0⟩ = [⟨⟨5⟩, ⟨0⟩⟩] ∧
    s1.goal.pickDrivingGoal map0 bp1 rng0 = .ok (none, rng0) ∧
    s1.goal.pickWalkingGoal map0 bp1 rng0 =
      .ok (some (.atBorder ⟨9⟩), rng0) ∧
    agentResultTrips (spawnOneAgent s1 map0 bp1 simC1 []) = some [] :=
  ⟨rfl, rfl, rfl, rfl⟩

/-- C1 (amended): for an agent whose origin building has a parked car
outside the reservation set, a failed driving-goal resolution drops the
agent silently — no walking goal is attempted, no trip is emitted, and
the reservation set is unchanged; the walking fallback happens only for
agents with no free parked car, and then a resolved walking goal emits
a walk trip. -/
theorem mode_choice_no_walk_fallback :
    (∀ (s : SpawnOverTime) (m : Map) (bp : List (String × List BuildingID))
       (sim : Sim) (res : List CarID) (t : Nat) (r1 r2 r3 : Rng)
       (bldgs : List BuildingID) (fromBldg : BuildingID) (pc : ParkedCar),
       sim.rng.genRange s.start_tick.tick s.stop_tick.tick = .ok (t, r1) →
       hmLookup bp s.start_from_neighborhood = some bldgs →
       r1.choose bldgs = (some fromBldg, r2) →
       List.find? (fun p : ParkedCar => !res.contains p.car)
         (Sim.parkedCarsByOwner { sim with rng := r2 } fromBldg) = some pc →
       s.goal.pickDrivingGoal m bp r2 = .ok (none, r3) →
       spawnOneAgent s m bp sim res = .ok ({ sim with rng := r3 }, res)) ∧
    (∀ (s : SpawnOverTime) (m : Map) (bp : List (String × List BuildingID))
       (sim : Sim) (res : List CarID) (t : Nat) (r1 r2 r3 : Rng)
       (bldgs : List BuildingID) (fromBldg : BuildingID) (goal : SidewalkSpot),
       sim.rng.genRange s.start_tick.tick s.stop_tick.tick = .ok (t, r1) →
       hmLookup bp s.start_from_neighborhood = some bldgs →
       r1.choose bldgs = (some fromBldg, r2) →
       List.find? (fun p : ParkedCar => !res.contains p.car)
         (Sim.parkedCarsByOwner { sim with rng := r2 } fromBldg) = none →
       s.goal.pickWalkingGoal m bp r2 = .ok (some goal, r3) →
       spawnOneAgent s m bp sim res =
         .ok ({ sim with
                 rng := r3
                 trips := sim.trips ++
                   [.justWalking ⟨t⟩ (.building fromBldg) goal] }, res)) := by
  constructor
  · intro s m bp sim res t r1 r2 r3 bldgs fromBldg pc h1 h2 h3 h4 h5
    unfold spawnOneAgent
    simp only [h1, h2, h3, h4, h5]
  · intro s m bp sim res t r1 r2 r3 bldgs fromBldg goal h1 h2 h3 h4 h5
    unfold spawnOneAgent
    simp only [h1, h2, h3, h4, h5]

/-- Witness for the amended C1 at concrete inputs: the dropped agent
(car present, driving goal unresolvable) and the walking agent (no car,
walking goal resolvable). -/
theorem mode_choice_no_walk_fallback_witness :
    spawnOneAgent s1 map0 bp1 simC1 [] =
      .ok ({ simC1 with rng := ⟨rng0.stream, 2⟩ }, []) ∧
    spawnOneAgent s2 mapC3 bp1 sim0 [] =
      .ok ({ sim0 with
              rng := ⟨rng0.stream, 3⟩
              trips := [.justWalking ⟨0⟩ (.building ⟨0⟩) (.building ⟨0⟩)] },
           []) := by
  constructor
  · exact mode_choice_no_walk_fallback.1 s1 map0 bp1 simC1 [] 0
      ⟨rng0.stream, 1⟩ ⟨rng0.stream, 2⟩ ⟨rng0.stream, 2⟩ [⟨0⟩] ⟨0⟩ ⟨⟨5⟩, ⟨0⟩⟩
      rfl rfl rfl rfl rfl
  · exact mode_choice_no_walk_fallback.2 s2 mapC3 bp1 sim0 [] 0
      ⟨rng0.stream, 1⟩ ⟨rng0.stream, 2⟩ ⟨rng0.stream, 3⟩ [⟨0⟩] ⟨0⟩
      (.building ⟨0⟩) rfl rfl rfl rfl rfl

/-- Lookup in a value-mapped association list. -/
theorem hmLookup_map {α β : Type} (f : α → β) :
    ∀ (o : List (String × α)) (k : String),
      hmLookup (o.map fun kv => (kv.1, f kv.2)) k = (hmLookup o k).map f := by
  intro o
  induction o with
  | nil => intro k; rfl
  | cons x xs ih =>
    intro k
    obtain ⟨k1, v1⟩ := x
    rw [List.map_cons, hmLookup, hmLookup]
    by_cases hk : k1 = k
    · rw [if_pos hk, if_pos hk]
      rfl
    · rw [if_neg hk, if_neg hk]
      exact ih k

/-- Inserting into the association-list map keeps keys duplicate-free. -/
theorem hmInsert_keys_nodup {α : Type} (mp : List (String × α)) (k : String)
    (v : α) (h : (mp.map Prod.fst).Nodup) :
    ((hmInsert mp k v).map Prod.fst).Nodup := by
  unfold hmInsert
  rw [List.map_cons]
  refine List.nodup_cons.mpr ⟨?_, ?_⟩
  · intro hmem
    obtain ⟨kv2, hm2, hk2⟩ := List.mem_map.mp hmem
    have hpred := List.of_mem_filter hm2
    rw [hk2] at hpred
    simp at hpred
  · exact h.sublist ((List.filter_sublist mp).map Prod.fst)

/-- Collecting pairs into the map yields duplicate-free keys. -/
theorem hmFromList_keys_nodup {α : Type} (l : List (String × α)) :
    ((hmFromList l).map Prod.fst).Nodup := by
  unfold hmFromList
  suffices haux : ∀ acc : List (String × α), (acc.map Prod.fst).Nodup →
      ((l.foldl (fun mp kv => hmInsert mp kv.1 kv.2) acc).map Prod.fst).Nodup by
    exact haux [] (by simp)
  induction l with
  | nil => intro acc h; exact h
  | cons x xs ih =>
    intro acc h
    rw [List.foldl_cons]
    exact ih _ (hmInsert_keys_nodup acc x.1 x.2 h)

/-- With duplicate-free keys, lookup is invariant under permutation of
the entry list: no lookup result depends on iteration order. -/
theorem hmLookup_perm {α : Type} {o1 o2 : List (String × α)}
    (hp : o1.Perm o2) :
    (o1.map Prod.fst).Nodup → ∀ k, hmLookup o1 k = hmLookup o2 k := by
  induction hp with
  | nil => intro _ k; rfl
  | cons x h ih =>
    intro hn k
    obtain ⟨k1, v1⟩ := x
    rw [hmLookup, hmLookup]
    by_cases hk : k1 = k
    · rw [if_pos hk, if_pos hk]
    · rw [if_neg hk, if_neg hk]
      refine ih ?_ k
      rw [List.map_cons] at hn
      exact hn.of_cons
  | swap x y l =>
    intro hn k
    obtain ⟨k1, v1⟩ := x
    obtain ⟨k2, v2⟩ := y
    rw [List.map_cons, List.map_cons, List.nodup_cons] at hn
    have hne : k2 ≠ k1 := by
      intro he
      exact hn.1 (by rw [he]; exact List.mem_cons_self _ _)
    rw [hmLookup, hmLookup, hmLookup, hmLookup]
    by_cases h2 : k2 = k
    · have h1 : ¬k1 = k := fun he => hne (h2.trans he.symm)
      rw [if_pos h2, if_neg h1, if_pos h2]
    · rw [if_neg h2]
      by_cases h1 : k1 = k
      · rw [if_pos h1, if_pos h1]
      · rw [if_neg h1, if_neg h1, if_neg h2]
  | trans h1 h2 ih1 ih2 =>
    intro hn k
    rw [ih1 hn k]
    exact ih2 ((h1.map Prod.fst).nodup_iff.mp hn) k

/-- The driving-goal resolver depends on the memoized map only through
lookups. -/
theorem pickDrivingGoal_cong (b1 b2 : List (String × List BuildingID))
    (hb : ∀ k, hmLookup b1 k = hmLookup b2 k) :
    ∀ (od : OriginDestination) (m : Map) (r : Rng),
      od.pickDrivingGoal m b1 r = od.pickDrivingGoal m b2 r := by
  intro od m r
  cases od with
  | neighborhood n => simp only [OriginDestination.pickDrivingGoal, hb]
  | border i => rfl

/-- The walking-goal resolver depends on the memoized map only through
lookups. -/
theorem pickWalkingGoal_cong (b1 b2 : List (String × List BuildingID))
    (hb : ∀ k, hmLookup b1 k = hmLookup b2 k) :
    ∀ (od : OriginDestination) (m : Map) (r : Rng),
      od.pickWalkingGoal m b1 r = od.pickWalkingGoal m b2 r := by
  intro od m r
  cases od with
  | neighborhood n => simp only [OriginDestination.pickWalkingGoal, hb]
  | border i => rfl

/-- One agent depends on the memoized map only through lookups. -/
theorem spawnOneAgent_cong (b1 b2 : List (String × List BuildingID))
    (hb : ∀ k, hmLookup b1 k = hmLookup b2 k) :
    ∀ (s : SpawnOverTime) (m : Map) (sim : Sim) (res : List CarID),
      spawnOneAgent s m b1 sim res = spawnOneAgent s m b2 sim res := by
  intro s m sim res
  unfold spawnOneAgent
  simp only [hb, pickDrivingGoal_cong b1 b2 hb, pickWalkingGoal_cong b1 b2 hb]

/-- The agent loop depends on the memoized map only through lookups. -/
theorem spawnAgents_cong (b1 b2 : List (String × List BuildingID))
    (hb : ∀ k, hmLookup b1 k = hmLookup b2 k) :
    ∀ (s : SpawnOverTime) (m : Map) (n : Nat) (sim : Sim) (res : List CarID),
      spawnAgents s m b1 n sim res = spawnAgents s m b2 n sim res := by
  intro s m n
  induction n with
  | zero => intro sim res; rfl
  | succ n ih =>
    intro sim res
    rw [spawnAgents, spawnAgents, spawnOneAgent_cong b1 b2 hb s m sim res]
    simp only [ih]

/-- The spawn-over-time phase depends on the memoized map only through
lookups. -/
theorem spawnOverTimePhase_cong (b1 b2 : List (String × List BuildingID))
    (hb : ∀ k, hmLookup b1 k = hmLookup b2 k) (m : Map)
    (nbhs : List (String × Neighborhood)) :
    ∀ (records : List SpawnOverTime) (sim : Sim) (res : List CarID),
      spawnOverTimePhase m nbhs b1 records sim res =
        spawnOverTimePhase m nbhs b2 records sim res := by
  intro records
  induction records with
  | nil => intro sim res; rfl
  | cons s rest ih =>
    intro sim res
    rw [spawnOverTimePhase, spawnOverTimePhase,
        spawnAgents_cong b1 b2 hb s m s.num_agents sim res]
    simp only [ih]

/-- The border pedestrian loop depends on the memoized map only through
lookups. -/
theorem borderPeds_cong (b1 b2 : List (String × List BuildingID))
    (hb : ∀ k, hmLookup b1 k = hmLookup b2 k) :
    ∀ (s : BorderSpawnOverTime) (m : Map) (start : SidewalkSpot) (n : Nat)
      (sim : Sim),
      borderPeds s m b1 start n sim = borderPeds s m b2 start n sim := by
  intro s m start n
  induction n with
  | zero => intro sim; rfl
  | succ n ih =>
    intro sim
    rw [borderPeds, borderPeds]
    simp only [pickWalkingGoal_cong b1 b2 hb, ih]

/-- The border car loop depends on the memoized map only through
lookups. -/
theorem borderCars_cong (b1 b2 : List (String × List BuildingID))
    (hb : ∀ k, hmLookup b1 k = hmLookup b2 k) :
    ∀ (s : BorderSpawnOverTime) (m : Map) (lane : LaneID) (n : Nat)
      (sim : Sim),
      borderCars s m b1 lane n sim = borderCars s m b2 lane n sim := by
  intro s m lane n
  induction n with
  | zero => intro sim; rfl
  | succ n ih =>
    intro sim
    rw [borderCars, borderCars]
    simp only [pickDrivingGoal_cong b1 b2 hb, ih]

/-- The car half of a border record depends on the memoized map only
through lookups. -/
theorem borderRecordCars_cong (b1 b2 : List (String × List BuildingID))
    (hb : ∀ k, hmLookup b1 k = hmLookup b2 k) :
    ∀ (s : BorderSpawnOverTime) (m : Map) (sim : Sim),
      borderRecordCars s m b1 sim = borderRecordCars s m b2 sim := by
  intro s m sim
  unfold borderRecordCars
  simp only [borderCars_cong b1 b2 hb]

/-- A border record depends on the memoized map only through lookups. -/
theorem borderRecord_cong (b1 b2 : List (String × List BuildingID))
    (hb : ∀ k, hmLookup b1 k = hmLookup b2 k) :
    ∀ (s : BorderSpawnOverTime) (m : Map) (sim : Sim),
      borderRecord s m b1 sim = borderRecord s m b2 sim := by
  intro s m sim
  unfold borderRecord
  simp only [borderPeds_cong b1 b2 hb, borderRecordCars_cong b1 b2 hb]

/-- The border phase depends on the memoized map only through lookups. -/
theorem borderPhase_cong (b1 b2 : List (String × List BuildingID))
    (hb : ∀ k, hmLookup b1 k = hmLookup b2 k) (m : Map) :
    ∀ (records : List BorderSpawnOverTime) (sim : Sim),
      borderPhase m b1 records sim = borderPhase m b2 records sim := by
  intro records
  induction records with
  | nil => intro sim; rfl
  | cons s rest ih =>
    intro sim
    rw [borderPhase, borderPhase, borderRecord_cong b1 b2 hb s m sim]
    simp only [ih]

/-- The seeding phase depends on the memoized maps only through
lookups. -/
theorem seedPhase_cong (b1 b2 : List (String × List BuildingID))
    (rp1 rp2 : List (String × List RoadID))
    (hb : ∀ k, hmLookup b1 k = hmLookup b2 k)
    (hr : ∀ k, hmLookup rp1 k = hmLookup rp2 k)
    (nbhs : List (String × Neighborhood)) :
    ∀ (records : List SeedParkedCars) (sim : Sim),
      seedPhase nbhs b1 rp1 records sim = seedPhase nbhs b2 rp2 records sim := by
  intro records
  induction records with
  | nil => intro sim; rfl
  | cons s rest ih =>
    intro sim
    rw [seedPhase, seedPhase]
    simp only [hb, hr, ih]

/-- C5: two `instantiate` calls on the same scenario, map, persisted
store and simulation state (hence the same random seed) produce the
same result, for any two iteration orders of the unordered neighborhood
table: no random draw, and hence no emitted trip tuple, depends on the
iteration order of the `HashMap`. -/
theorem instantiate_deterministic (sc : Scenario)
    (persisted : List (String × Neighborhood)) (sim : Sim) (m : Map)
    (o1 o2 : List (String × Neighborhood))
    (h1 : o1.Perm (hmInsert (hmFromList persisted) "_everywhere_"
      (Neighborhood.makeEverywhere m)))
    (h2 : o2.Perm (hmInsert (hmFromList persisted) "_everywhere_"
      (Neighborhood.makeEverywhere m))) :
    sc.instantiate persisted o1 sim m = sc.instantiate persisted o2 sim m := by
  have hperm : o1.Perm o2 := h1.trans h2.symm
  have hnodup : (o1.map Prod.fst).Nodup :=
    (h1.map Prod.fst).nodup_iff.mpr
      (hmInsert_keys_nodup _ _ _ (hmFromList_keys_nodup persisted))
  have hlook := hmLookup_perm hperm hnodup
  have hb : ∀ k,
      hmLookup (o1.map fun kv => (kv.1, kv.2.findMatchingBuildings m)) k =
      hmLookup (o2.map fun kv => (kv.1, kv.2.findMatchingBuildings m)) k := by
    intro k
    have e1 : hmLookup (o1.map fun kv => (kv.1, kv.2.findMatchingBuildings m)) k =
        (hmLookup o1 k).map fun nb => nb.findMatchingBuildings m :=
      hmLookup_map (fun nb => nb.findMatchingBuildings m) o1 k
    have e2 : hmLookup (o2.map fun kv => (kv.1, kv.2.findMatchingBuildings m)) k =
        (hmLookup o2 k).map fun nb => nb.findMatchingBuildings m :=
      hmLookup_map (fun nb => nb.findMatchingBuildings m) o2 k
    rw [e1, e2, hlook k]
  have hr : ∀ k,
      hmLookup (o1.map fun kv => (kv.1, kv.2.findMatchingRoads m)) k =
      hmLookup (o2.map fun kv => (kv.1, kv.2.findMatchingRoads m)) k := by
    intro k
    have e1 : hmLookup (o1.map fun kv => (kv.1, kv.2.findMatchingRoads m)) k =
        (hmLookup o1 k).map fun nb => nb.findMatchingRoads m :=
      hmLookup_map (fun nb => nb.findMatchingRoads m) o1 k
    have e2 : hmLookup (o2.map fun kv => (kv.1, kv.2.findMatchingRoads m)) k =
        (hmLookup o2 k).map fun nb => nb.findMatchingRoads m :=
      hmLookup_map (fun nb => nb.findMatchingRoads m) o2 k
    rw [e1, e2, hlook k]
  unfold Scenario.instantiate
  by_cases ht : sim.time ≠ Tick.zero
  · rw [if_pos ht, if_pos ht]
  · rw [if_neg ht, if_neg ht]
    simp only [instantiateBody]
    rw [seedPhase_cong _ _ _ _ hb hr _ sc.seed_parked_cars sim]
    simp only [spawnOverTimePhase_cong _ _ hb m _ sc.spawn_over_time,
               borderPhase_cong _ _ hb m sc.border_spawn_over_time]

/-- Witness for C5: the two iteration orders of the two-entry
neighborhood table over `mapC3` give identical instantiation results. -/
theorem instantiate_deterministic_witness :
    scC3.instantiate persistedC5 o1C5 sim0 mapC3 =
      scC3.instantiate persistedC5 o2C5 sim0 mapC3 :=
  instantiate_deterministic scC3 persistedC5 sim0 mapC3 o1C5 o2C5
    (by decide) (by decide)

end ABStreet
